import Mathlib

/-!
Grocery list client: store, renderer, request gateway and event handlers.

A shallow embedding of `src/client/util.js`, `src/client/store.js`,
`src/client/ui.js` and `src/client/event.js`.

* JavaScript arrays are lists; an object reference to an item is the item value.
* The module-level array `items` of `store.js` and the item elements of the
  `.grocery-list` container are threaded explicitly as a `State`.
* A JavaScript exception (`TypeError` on a `null` element) is a `Status`, and
  the state it is returned with holds the mutations made before the throw.
* The browser environment decides which branch of the shims in `util.js`
  runs; it is the `Env` every operation takes.
-/

namespace Groceries

/-! ## Data model -/

/-- An item record. `completed` and `archived` may be absent (`undefined`): the
server creates records that only have `id` and `name`. -/
structure Item where
  id : Int
  name : String
  completed : Option Bool
  archived : Option Bool
deriving DecidableEq, Repr

/-- JavaScript truthiness of an optional boolean field (`undefined` is falsy). -/
def truthy : Option Bool → Bool
  | some b => b
  | none => false

/-- A grocery item element of the page: the parts of it the client reads or writes. -/
structure ItemEl where
  /-- the `data-id` attribute (`none`: absent) -/
  dataId : Option Int
  /-- `textContent` of `.grocery-item-name` -/
  nameText : String
  /-- the `checked` property of `.grocery-item-completed` -/
  checked : Bool
  /-- presence of the `completed` attribute -/
  completed : Bool
  /-- presence of the `hidden` attribute -/
  hidden : Bool
  /-- presence of the `editing` attribute -/
  editing : Bool
  /-- `value` of the `.grocery-item-edit` input -/
  editValue : String
deriving DecidableEq, Repr

/-- The browser environment. `hasFind` / `hasFindIndex` say whether
`Array.prototype.find` / `Array.prototype.findIndex` exist; `template` is the
element the markup of `#grocery-item-template` (in `index.html`, which is not
among the sources) parses to. -/
structure Env where
  hasFind : Bool
  hasFindIndex : Bool
  template : ItemEl
deriving DecidableEq, Repr

/-! ## util.js -/

/-- The values `findIndexInArray` can return: `null` or a number. -/
inductive JsIndex where
  | null
  | num (i : Int)
deriving DecidableEq, Repr

/-- `ToIntegerOrInfinity` on those values: `null` converts to `0`. -/
def JsIndex.toInteger : JsIndex → Int
  | JsIndex.null => 0
  | JsIndex.num i => i

/-- The comparison `v >= 0`; `null` is converted to the number `0` first. -/
def JsIndex.geZero (v : JsIndex) : Bool := decide (0 ≤ v.toInteger)

/-- Index of the first element satisfying `callback`, if any. -/
def firstIndex {α : Type} (callback : α → Bool) : List α → Option Nat
  | [] => none
  | x :: xs => if callback x then some 0 else (firstIndex callback xs).map (· + 1)

/-- The built-in `Array.prototype.find`. -/
def arrayFind {α : Type} (callback : α → Bool) : List α → Option α
  | [] => none
  | x :: xs => if callback x then some x else arrayFind callback xs

/-- The built-in `Array.prototype.findIndex`: `-1` when nothing matches. -/
def arrayFindIndex {α : Type} (callback : α → Bool) (array : List α) : Int :=
  match firstIndex callback array with
  | some i => (i : Int)
  | none => -1

/-- The loop `array.some(function(item) { if (callback(item)) { matchingItem = item; return true } })`
of `findInArray`: the value of `matchingItem` afterwards. -/
def someItemLoop {α : Type} (callback : α → Bool) : List α → Option α → Option α
  | [], matchingItem => matchingItem
  | item :: rest, matchingItem =>
    if callback item then some item else someItemLoop callback rest matchingItem

/-- The loop `array.some(function(item, index) { if (callback(item)) { matchingIndex = index; return true } })`
of `findIndexInArray`: the value of `matchingIndex` afterwards (`index` is the
index of the head of the remaining array). -/
def someIndexLoop {α : Type} (callback : α → Bool) : List α → Nat → JsIndex → JsIndex
  | [], _, matchingIndex => matchingIndex
  | item :: rest, index, matchingIndex =>
    if callback item then JsIndex.num index
    else someIndexLoop callback rest (index + 1) matchingIndex

/-- `util.findInArray`. `none` stands for the falsy results `undefined`
(built-in branch) and `null` (fallback branch). -/
def findInArray {α : Type} (env : Env) (array : List α) (callback : α → Bool) : Option α :=
  if env.hasFind then arrayFind callback array
  else someItemLoop callback array none

/-- `util.findIndexInArray`. -/
def findIndexInArray {α : Type} (env : Env) (array : List α) (callback : α → Bool) : JsIndex :=
  if env.hasFindIndex then JsIndex.num (arrayFindIndex callback array)
  else someIndexLoop callback array 0 JsIndex.null

/-- The built-in `array.splice(start, deleteCount, ...items)`: the array afterwards.
A negative `start` counts from the end. -/
def splice {α : Type} (array : List α) (start : JsIndex) (deleteCount : Nat)
    (items : List α) : List α :=
  let len : Int := array.length
  let relativeStart := start.toInteger
  let actualStart : Nat :=
    (if relativeStart < 0 then max (len + relativeStart) 0 else min relativeStart len).toNat
  let actualDeleteCount := min deleteCount (array.length - actualStart)
  array.take actualStart ++ items ++ array.drop (actualStart + actualDeleteCount)

/-! ## store.js -/

/-- `store.addItem`. -/
def addItem (items : List Item) (item : Item) : List Item := items ++ [item]

/-- `store.getItemById`. -/
def getItemById (env : Env) (items : List Item) (id : Int) : Option Item :=
  findInArray env items (fun item => decide (item.id = id))

/-- `store.removeItemFromList`. -/
def removeItemFromList (env : Env) (items : List Item) (id : Int) : List Item :=
  let itemIndex := findIndexInArray env items (fun item => decide (item.id = id))
  splice items itemIndex 1 []

/-- `store.replaceItemInList`. -/
def replaceItemInList (env : Env) (items : List Item) (newItem : Item) : List Item :=
  let itemIndex := findIndexInArray env items (fun item => decide (item.id = newItem.id))
  if itemIndex.geZero then splice items itemIndex 1 [newItem] else items

/-! ## ui.js -/

/-- The store together with the rendered list: `items` is the array of
`store.js`, `list` the grocery item elements of `.grocery-list` in document
order (all of them precede the add form, before which new ones are inserted). -/
structure State where
  items : List Item
  list : List ItemEl
deriving DecidableEq, Repr

/-- How a call ended: normally, with a `TypeError` (a property of `null` was
read), or with the recursion budget of the model used up. -/
inductive Status where
  | ok
  | typeError
  | overflow
deriving DecidableEq, Repr

/-- What a call of the renderer leaves behind. `itemEl` is the element the
caller holds a reference to (the `itemEl` argument of `updateItem`, the return
value of `addItemToList` and `createNewItemEl`), `documentFragment` the
caller's fragment. -/
structure Outcome where
  state : State
  itemEl : Option ItemEl
  documentFragment : Option (List ItemEl)
  status : Status
deriving DecidableEq, Repr

/-- Apply `f` to the element at position `k` (an element is reached through a
reference in the source; here through its place in its container). -/
def modifyAt {α : Type} (f : α → α) : Nat → List α → List α
  | _, [] => []
  | 0, x :: xs => f x :: xs
  | k + 1, x :: xs => x :: modifyAt f k xs

/-- Remove the element at position `k`. -/
def removeAt {α : Type} : Nat → List α → List α
  | _, [] => []
  | 0, _ :: xs => xs
  | k + 1, x :: xs => x :: removeAt k xs

/-- `document.querySelector('[data-id="' + id + '"]')`: the position in the
list of the first element carrying that `data-id`, `none` for `null`. Only
grocery item elements carry a `data-id`. -/
def querySelector (list : List ItemEl) (id : Int) : Option Nat :=
  firstIndex (fun el => decide (el.dataId = some id)) list

/-- The element writes of the update path of `updateItem`, in source order:
`hidden` when `archived` differs, `completed` when `completed` differs, the
name text when `name` differs. -/
def applyChanges (newItem oldItem : Item) (itemEl : ItemEl) : ItemEl :=
  let el1 := if newItem.archived ≠ oldItem.archived
    then { itemEl with hidden := truthy newItem.archived } else itemEl
  let el2 := if newItem.completed ≠ oldItem.completed
    then { el1 with completed := truthy newItem.completed } else el1
  if newItem.name ≠ oldItem.name then { el2 with nameText := newItem.name } else el2

/-- Whether the update path dereferences `itemEl` at all. -/
def touchesElement (newItem oldItem : Item) : Bool :=
  decide (newItem.archived ≠ oldItem.archived) || decide (newItem.completed ≠ oldItem.completed)
    || decide (newItem.name ≠ oldItem.name)

/-- The element writes of the create path of `updateItem`, after
`addItemToList` returned: checkbox, `completed` attribute, `data-id`, name text. -/
def applyNew (newItem : Item) (itemEl : ItemEl) : ItemEl :=
  { itemEl with
    checked := truthy newItem.completed
    completed := truthy newItem.completed
    dataId := some newItem.id
    nameText := newItem.name }

/-- The private `createNewItemEl`: the template's element, detached from the
document, is handed to `groceries.ui.updateItem(item, itemEl)` and returned.
`updateItem` is the public method it calls back into. -/
def createNewItemEl
    (updateItem : Item → Option ItemEl → Option (List ItemEl) → State → Outcome)
    (env : Env) (item : Item) (s : State) : Outcome :=
  let itemEl := env.template
  let r := updateItem item (some itemEl) none s
  ⟨r.state, r.itemEl, none, r.status⟩

/-- The private `addItemToList`: store the item, build its element, append the
element to the fragment when there is one and insert it before the add form
otherwise. The outcome's `itemEl` is the new element, which is the last one of
the container it went to. -/
def addItemToList
    (updateItem : Item → Option ItemEl → Option (List ItemEl) → State → Outcome)
    (env : Env) (item : Item) (documentFragment : Option (List ItemEl)) (s : State) : Outcome :=
  let s1 : State := ⟨addItem s.items item, s.list⟩
  let created := createNewItemEl updateItem env item s1
  match created.status, created.itemEl with
  | Status.ok, some newListItemEl =>
    match documentFragment with
    | some fragment => ⟨created.state, some newListItemEl, some (fragment ++ [newListItemEl]), Status.ok⟩
    | none =>
      ⟨⟨created.state.items, created.state.list ++ [newListItemEl]⟩, some newListItemEl, none,
        Status.ok⟩
  | Status.ok, none => ⟨created.state, none, documentFragment, Status.typeError⟩
  | status, _ => ⟨created.state, none, documentFragment, status⟩

/-- The update path of `updateItem` (its `else` block), `oldItem` being the
record found in the store: replace the record, take the caller's element or
look the element up by `data-id`, and write the fields that differ. A `null`
element throws at the first write. -/
def updateExisting (env : Env) (newItem oldItem : Item) (itemEl : Option ItemEl)
    (documentFragment : Option (List ItemEl)) (s : State) : Outcome :=
  let items := replaceItemInList env s.items newItem
  match itemEl with
  | some el => ⟨⟨items, s.list⟩, some (applyChanges newItem oldItem el), documentFragment, Status.ok⟩
  | none =>
    match querySelector s.list newItem.id with
    | some k => ⟨⟨items, modifyAt (applyChanges newItem oldItem) k s.list⟩, none,
        documentFragment, Status.ok⟩
    | none => ⟨⟨items, s.list⟩, none, documentFragment,
        if touchesElement newItem oldItem then Status.typeError else Status.ok⟩

/-- `ui.updateItem(newItem, itemEl, documentFragment)` with a budget for the
calls it makes back into itself through `createNewItemEl`. -/
def updateItemFuel : Nat → Env → Item → Option ItemEl → Option (List ItemEl) → State → Outcome
  | 0, _, _, itemEl, documentFragment, s => ⟨s, itemEl, documentFragment, Status.overflow⟩
  | fuel + 1, env, newItem, itemEl, documentFragment, s =>
    match getItemById env s.items newItem.id with
    | none =>
      let added := addItemToList (updateItemFuel fuel env) env newItem documentFragment s
      match added.status with
      | Status.ok =>
        match added.documentFragment with
        | some fragment =>
          ⟨added.state, itemEl,
            some (modifyAt (applyNew newItem) (fragment.length - 1) fragment), Status.ok⟩
        | none =>
          ⟨⟨added.state.items,
              modifyAt (applyNew newItem) (added.state.list.length - 1) added.state.list⟩,
            itemEl, none, Status.ok⟩
      | status => ⟨added.state, itemEl, added.documentFragment, status⟩
    | some oldItem => updateExisting env newItem oldItem itemEl documentFragment s

/-- `ui.updateItem`. One call back into itself is all the source can make (the
item is in the store by then), so a budget of two is exact: see
`updateItemFuel_stable`. -/
def updateItem (env : Env) (newItem : Item) (itemEl : Option ItemEl)
    (documentFragment : Option (List ItemEl)) (s : State) : Outcome :=
  updateItemFuel 2 env newItem itemEl documentFragment s

/-- The success continuation of `ui.deleteItem(id)`: drop the record from the
store, then look the element up by its `data-id` and remove it from its parent. -/
def deleteItemDone (env : Env) (id : Int) (s : State) : State × Status :=
  let items := removeItemFromList env s.items id
  match querySelector s.list id with
  | some k => (⟨items, removeAt k s.list⟩, Status.ok)
  | none => (⟨items, s.list⟩, Status.typeError)

/-- The empty store and the empty list. -/
def emptyState : State := ⟨[], []⟩

/-- A browser with `Array.prototype.find` and `findIndex`, and a plain item template. -/
def modernEnv : Env :=
  ⟨true, true, ⟨none, "", false, false, false, false, ""⟩⟩

/-- A browser without `Array.prototype.find` and `findIndex`. -/
def legacyEnv : Env :=
  ⟨false, false, ⟨none, "", false, false, false, false, ""⟩⟩

/-! ## util.js: the request gateway -/

/-- What `showError` is handed and an `Error` is built from: the text of the
response, or its numeric status code. -/
inductive Message where
  | text (s : String)
  | status (code : Nat)
deriving DecidableEq, Repr

/-- The response `fetch` resolves with: status code and body text. -/
structure Response where
  status : Nat
  text : String
deriving DecidableEq, Repr

/-- `response.ok`: the status is in the range 200 to 299. -/
def Response.ok (r : Response) : Bool := decide (200 ≤ r.status ∧ r.status ≤ 299)

/-- How the promise of `fetch` settles: rejected (a network error) or
fulfilled with a response. -/
inductive Fetched where
  | failed
  | response (r : Response)
deriving DecidableEq, Repr

/-- What the promise of `sendRequest` is fulfilled with: the parsed JSON of the
response, or the status code. -/
inductive Payload (α : Type) where
  | json (v : α)
  | status (code : Nat)
deriving DecidableEq, Repr

/-- What the promise of `sendRequest` is rejected with: the `Error` built from
a message, the error of `fetch`, or the error of `response.json()` on a body
that is not JSON. -/
inductive Failure where
  | error (message : Message)
  | network
  | notJson
deriving DecidableEq, Repr

/-- How the promise of `sendRequest` settles. -/
inductive Settled (α : Type) where
  | resolved (payload : Payload α)
  | rejected (failure : Failure)
deriving DecidableEq, Repr

/-- The error box `.grocery-list-alert`: its text (`none` until one is set),
its `hidden` attribute, and whether the timeout that hides it is pending. -/
structure Alert where
  content : Option Message
  hidden : Bool
  timerPending : Bool
deriving DecidableEq, Repr

/-- `ui.showError`: restart the timeout, set the text, show the box. -/
def showError (message : Message) (_alert : Alert) : Alert :=
  ⟨some message, false, true⟩

/-- `String.prototype.toLowerCase` on the method names in use (ASCII). -/
def toLowerCase (s : String) : String := String.mk (s.data.map Char.toLower)

/-- The `Content-Type` header `sendRequest` sets, if any. -/
def contentType (method : String) : Option String :=
  if method = "PATCH" then some "application/json-patch+json"
  else if method = "POST" then some "application/json"
  else none

/-- `text || response.status`: the text unless it is empty. -/
def errorMessage (r : Response) : Message :=
  if r.text ≠ "" then Message.text r.text else Message.status r.status

/-- `util.sendRequest`, from the point where `fetch` settles: the settlement of
the returned promise and the error box afterwards. `parse` is `JSON.parse` on
the body, `none` when the body is not JSON. -/
def sendRequest {α : Type} (parse : String → Option α) (method : String) (fetched : Fetched)
    (alert : Alert) : Settled α × Alert :=
  match fetched with
  | Fetched.response response =>
    if response.ok then
      if toLowerCase method ≠ "delete" then
        match parse response.text with
        | some v => (Settled.resolved (Payload.json v), alert)
        | none => (Settled.rejected Failure.notJson, alert)
      else (Settled.resolved (Payload.status response.status), alert)
    else
      let message := errorMessage response
      (Settled.rejected (Failure.error message), showError message alert)
  | Fetched.failed =>
    (Settled.rejected Failure.network, showError (Message.text "Network error") alert)

/-- The request ended in a network failure or an application failure (a
status outside 200 to 299). -/
def Fetched.isFailure : Fetched → Bool
  | Fetched.failed => true
  | Fetched.response r => !r.ok

/-! ## ui.js and event.js: requests and handlers

A handler runs in two parts: the synchronous part, up to the call of
`sendRequest` (it yields the request sent, if any), and the part that runs when
the request settles (`sendRequest`'s callbacks followed by the handler's own
continuation, which only runs when the promise is fulfilled). -/

/-- The value of a JSON patch directive. -/
inductive PatchValue where
  | bool (b : Bool)
  | str (s : String)
deriving DecidableEq, Repr

/-- The requests the client sends. An id is `none` when the number in the URL
is `NaN` or `undefined` (no `data-id` to parse, no item deleted yet). -/
inductive Request where
  | getItems
  | postItem (name : String)
  | patchItem (id : Option Int) (path : String) (value : PatchValue)
  | deleteItem (id : Option Int)
deriving DecidableEq, Repr

/-- The page as the handlers see it: store and list, the error box, the text
of the add form's input, the module variables `lastDeletedItemId` and
`undoTimer` of `event.js`, the `aria-hidden` state of the undo prompt, and the
pending timeouts of `showUndoDelete` (handle and the id each one captured). -/
structure App where
  view : State
  alert : Alert
  addInput : String
  lastDeletedItemId : Option Int
  undoTimer : Option Nat
  promptHidden : Bool
  timers : List (Nat × Option Int)
  nextTimer : Nat
deriving DecidableEq, Repr

/-- The code points `String.prototype.trim` strips. -/
def isJsWhitespace (c : Char) : Bool :=
  decide (c.toNat ∈ [9, 10, 11, 12, 13, 32, 160, 5760, 8232, 8233, 8239, 8287, 12288, 65279])
    || decide (8192 ≤ c.toNat ∧ c.toNat ≤ 8202)

/-- `String.prototype.trim`. -/
def trim (s : String) : String :=
  String.mk ((s.data.dropWhile isJsWhitespace).reverse.dropWhile isJsWhitespace).reverse

/-- `clearTimeout(handle)`. -/
def clearTimeout (handle : Option Nat) (timers : List (Nat × Option Int)) :
    List (Nat × Option Int) :=
  match handle with
  | some h => timers.filter (fun t => decide (t.1 ≠ h))
  | none => timers

/-- The private `showUndoDelete(id)`: reveal the prompt, remember the id, start the timeout. -/
def showUndoDelete (id : Option Int) (app : App) : App :=
  { app with
    promptHidden := false
    lastDeletedItemId := id
    undoTimer := some app.nextTimer
    timers := app.timers ++ [(app.nextTimer, id)]
    nextTimer := app.nextTimer + 1 }

/-- `.then(groceries.ui.updateItem)` on the promise of a `sendRequest` that
asked for JSON, with what follows when `updateItem` returned normally. -/
def thenUpdateItem (env : Env) (parse : String → Option Item) (method : String)
    (fetched : Fetched) (next : App → App) (app : App) : App :=
  match sendRequest parse method fetched app.alert with
  | (Settled.resolved (Payload.json newItem), alert) =>
    let r := updateItem env newItem none none app.view
    let app1 := { app with alert := alert, view := r.state }
    match r.status with
    | Status.ok => next app1
    | _ => app1
  | (_, alert) => { app with alert := alert }

/-- The success continuation of `ui.deleteItem(id)` for any id; `none`
(`undefined`, `NaN`) equals no record id and no `data-id`. -/
def deleteItemThen (env : Env) (id : Option Int) (s : State) : State × Status :=
  match id with
  | some i => deleteItemDone env i s
  | none => (⟨splice s.items (findIndexInArray env s.items (fun _ => false)) 1 [], s.list⟩,
      Status.typeError)

/-- `ui.deleteItem(id)` from the point where its `DELETE` request settles. -/
def deleteItemSettle (env : Env) (parse : String → Option Item) (id : Option Int)
    (fetched : Fetched) (app : App) : App :=
  match sendRequest parse "DELETE" fetched app.alert with
  | (Settled.resolved _, alert) => { app with alert := alert, view := (deleteItemThen env id app.view).1 }
  | (Settled.rejected _, alert) => { app with alert := alert }

/-- The user gestures that lead to a request. `k` is the position in the list
of the item element the event came from; `handle` is the timeout that fires. -/
inductive Gesture where
  | addSubmit
  | completedChange (k : Nat)
  | deleteClick (k : Nat)
  | editSubmit (k : Nat)
  | undoClick
  | closeClick
  | timeout (handle : Nat)
deriving DecidableEq, Repr

/-- `groceryItemEl.removeAttribute('editing')`. -/
def leaveEditMode (el : ItemEl) : ItemEl := { el with editing := false }

/-- The synchronous part of the handlers registered by `registerAddItemHandler`,
`registerCompletedItemHandler`, `registerDeleteAndEditItemHandlers` (delete
button), `registerUpdateItemHandler`, `setupUndoDelete` and of the timeout of
`showUndoDelete`: the page afterwards and the request sent. -/
def handlerBegin (g : Gesture) (app : App) : App × Option Request :=
  match g with
  | Gesture.addSubmit =>
    if (trim app.addInput).length > 0 then (app, some (Request.postItem app.addInput))
    else (app, none)
  | Gesture.completedChange k =>
    match app.view.list.get? k with
    | some el =>
      (app, some (Request.patchItem el.dataId "/completed" (PatchValue.bool el.checked)))
    | none => (app, none)
  | Gesture.deleteClick k =>
    match app.view.list.get? k with
    | some el => (app, some (Request.patchItem el.dataId "/archived" (PatchValue.bool true)))
    | none => (app, none)
  | Gesture.editSubmit k =>
    match app.view.list.get? k with
    | some el =>
      ({ app with view := ⟨app.view.items, modifyAt leaveEditMode k app.view.list⟩ },
        some (Request.patchItem el.dataId "/name" (PatchValue.str el.editValue)))
    | none => (app, none)
  | Gesture.undoClick =>
    ({ app with timers := clearTimeout app.undoTimer app.timers, promptHidden := true },
      some (Request.patchItem app.lastDeletedItemId "/archived" (PatchValue.bool false)))
  | Gesture.closeClick =>
    ({ app with timers := clearTimeout app.undoTimer app.timers, promptHidden := true },
      some (Request.deleteItem app.lastDeletedItemId))
  | Gesture.timeout handle =>
    match app.timers.find? (fun t => decide (t.1 = handle)) with
    | some t =>
      ({ app with timers := app.timers.filter (fun t => decide (t.1 ≠ handle)),
                  promptHidden := true },
        some (Request.deleteItem t.2))
    | none => (app, none)

/-- The part of a handler that runs when its request settles; `request` is the
request `handlerBegin` sent. -/
def handlerSettle (env : Env) (parse : String → Option Item) (g : Gesture) (request : Request)
    (fetched : Fetched) (app : App) : App :=
  match g, request with
  | Gesture.addSubmit, _ =>
    match sendRequest parse "POST" fetched app.alert with
    | (Settled.resolved (Payload.json newItem), alert) =>
      { app with alert := alert, addInput := "",
                 view := (updateItem env newItem none none app.view).state }
    | (_, alert) => { app with alert := alert }
  | Gesture.completedChange _, _ => thenUpdateItem env parse "PATCH" fetched id app
  | Gesture.deleteClick _, Request.patchItem itemId _ _ =>
    thenUpdateItem env parse "PATCH" fetched (showUndoDelete itemId) app
  | Gesture.deleteClick _, _ => thenUpdateItem env parse "PATCH" fetched id app
  | Gesture.editSubmit _, _ => thenUpdateItem env parse "PATCH" fetched id app
  | Gesture.undoClick, _ => thenUpdateItem env parse "PATCH" fetched id app
  | Gesture.closeClick, Request.deleteItem itemId => deleteItemSettle env parse itemId fetched app
  | Gesture.closeClick, _ => app
  | Gesture.timeout _, Request.deleteItem itemId => deleteItemSettle env parse itemId fetched app
  | Gesture.timeout _, _ => app

/-- One controller operation from gesture to settlement, nothing else running
in between: the handler's synchronous part, then, if it sent a request, the
part that runs when `fetch` settles as `fetched`. -/
def perform (env : Env) (parse : String → Option Item) (g : Gesture) (fetched : Fetched)
    (app : App) : App :=
  match handlerBegin g app with
  | (app1, some request) => handlerSettle env parse g request fetched app1
  | (app1, none) => app1

/-- The browser's default action on a click on the checkbox of the element at
position `k`, which precedes the `change` event: the checkbox flips. -/
def clickCheckbox (k : Nat) (s : State) : State :=
  ⟨s.items, modifyAt (fun e => { e with checked := !e.checked }) k s.list⟩

/-- The edit-button branch of `registerDeleteAndEditItemHandlers`: mark the
element as editing and put the stored name in its input. Reading `.name` of a
missing record throws. -/
def editClick (env : Env) (k : Nat) (s : State) : State × Status :=
  match s.list.get? k with
  | some el =>
    let list1 := modifyAt (fun e => { e with editing := true }) k s.list
    match el.dataId.bind (getItemById env s.items) with
    | some item => (⟨s.items, modifyAt (fun e => { e with editValue := item.name }) k list1⟩,
        Status.ok)
    | none => (⟨s.items, list1⟩, Status.typeError)
  | none => (s, Status.ok)

/-! ## ui.js: the initial load -/

/-- The `forEach` of `loadInitialItems` over the items of the response:
`!item.archived && this.updateItem(item, null, documentFragment)`. It yields the
state, the fragment, and how it ended; an exception of `updateItem` ends it. -/
def loadItemsLoop (env : Env) : List Item → List ItemEl → State → State × List ItemEl × Status
  | [], documentFragment, s => (s, documentFragment, Status.ok)
  | item :: rest, documentFragment, s =>
    if truthy item.archived then loadItemsLoop env rest documentFragment s
    else
      let r := updateItem env item none (some documentFragment) s
      let fragment :=
        match r.documentFragment with
        | some f => f
        | none => documentFragment
      match r.status with
      | Status.ok => loadItemsLoop env rest fragment r.state
      | status => (r.state, fragment, status)

/-- The success continuation of `ui.loadInitialItems`: fill a fragment with the
elements of the items that are not archived, then insert the fragment's
elements before the add form. -/
def loadInitialItemsThen (env : Env) (items : List Item) (s : State) : State × Status :=
  match loadItemsLoop env items [] s with
  | (s1, documentFragment, Status.ok) => (⟨s1.items, s1.list ++ documentFragment⟩, Status.ok)
  | (s1, _, status) => (s1, status)

/-- `ui.loadInitialItems` from the point where its `GET` request settles. -/
def loadInitialItems (env : Env) (parse : String → Option (List Item)) (fetched : Fetched)
    (app : App) : App :=
  match sendRequest parse "GET" fetched app.alert with
  | (Settled.resolved (Payload.json items), alert) =>
    { app with alert := alert, view := (loadInitialItemsThen env items app.view).1 }
  | (_, alert) => { app with alert := alert }

/-! ## server/index.js -/

/-- The JSON values the API deals in (nested objects and arrays are not needed). -/
inductive JsVal where
  | undefined
  | null
  | bool (b : Bool)
  | num (n : Int)
  | str (s : String)
deriving DecidableEq, Repr

/-- A JavaScript object: its properties in insertion order. -/
abbrev Obj := List (String × JsVal)

/-- `o[key]`: `undefined` when the object has no such property. -/
def getProp : Obj → String → JsVal
  | [], _ => JsVal.undefined
  | p :: rest, key => if p.1 = key then p.2 else getProp rest key

/-- `o[key] = v`: the property is overwritten in place, or added last. -/
def setProp : Obj → String → JsVal → Obj
  | [], key, v => [(key, v)]
  | p :: rest, key, v => if p.1 = key then (key, v) :: rest else p :: setProp rest key v

/-- String concatenation's conversion of a JSON value. -/
def jsToString : JsVal → String
  | JsVal.undefined => "undefined"
  | JsVal.null => "null"
  | JsVal.bool true => "true"
  | JsVal.bool false => "false"
  | JsVal.num n => toString n
  | JsVal.str s => s

/-- `s.substring(1)`. -/
def substringFromOne (s : String) : String := String.mk (s.data.drop 1)

/-- The module state of the server: the `items` array and `lastId`. -/
structure Server where
  items : List Obj
  lastId : Int
deriving DecidableEq, Repr

/-- The state the server starts in. -/
def initialServer : Server :=
  ⟨[[("id", JsVal.num 0), ("name", JsVal.str "Bananas")],
    [("id", JsVal.num 1), ("name", JsVal.str "Ketchup")],
    [("id", JsVal.num 2), ("name", JsVal.str "MacBook Pro")]], 2⟩

/-- A request to the API. The id is `parseInt(request.params.id)`, `none` for
`NaN`; `directive` and `body` are `request.body`. -/
inductive ApiRequest where
  | getItems
  | deleteItem (id : Option Int)
  | patchItem (id : Option Int) (directive : Obj)
  | postItem (body : Obj)
deriving DecidableEq, Repr

/-- The body of a response. -/
inductive ApiBody where
  | empty
  | text (s : String)
  | item (o : Obj)
  | items (l : List Obj)
deriving DecidableEq, Repr

/-- A response of the API. -/
structure ApiResponse where
  status : Nat
  body : ApiBody
deriving DecidableEq, Repr

/-- The server's `getIndexOfId`: `items.findIndex(item => item.id === id)`. -/
def getIndexOfId (items : List Obj) (id : Option Int) : Int :=
  arrayFindIndex (fun item =>
    match id with
    | some n => decide (getProp item "id" = JsVal.num n)
    | none => false) items

/-- `router.get('/items')`. -/
def routerGet (s : Server) : Server × ApiResponse :=
  (s, ⟨200, ApiBody.items s.items⟩)

/-- `router.delete('/item/:id')`. -/
def routerDelete (id : Option Int) (s : Server) : Server × ApiResponse :=
  let itemIndex := getIndexOfId s.items id
  if itemIndex < 0 then (s, ⟨404, ApiBody.empty⟩)
  else (⟨splice s.items (JsIndex.num itemIndex) 1 [], s.lastId⟩, ⟨200, ApiBody.empty⟩)

/-- `router.patch('/item/:id')`. A `path` that is not a string makes
`directive.path.substring(1)` throw before anything else happened: the
framework answers 500 (its error page is not modelled). After a 403 or a 404
was sent the final `response.json(item)` throws and changes nothing. -/
def routerPatch (id : Option Int) (directive : Obj) (s : Server) : Server × ApiResponse :=
  match getProp directive "path" with
  | JsVal.str fullPath =>
    let itemIndex := getIndexOfId s.items id
    let item := if itemIndex < 0 then none else s.items.get? itemIndex.toNat
    let operation := getProp directive "op"
    let path := substringFromOne fullPath
    let value := getProp directive "value"
    if operation ≠ JsVal.str "replace" then
      (s, ⟨403, ApiBody.text ("PATH op of " ++ jsToString operation ++ " is not supported.")⟩)
    else
      match item with
      | none => (s, ⟨404, ApiBody.empty⟩)
      | some found =>
        (⟨modifyAt (fun o => setProp o path value) itemIndex.toNat s.items, s.lastId⟩,
          ⟨200, ApiBody.item (setProp found path value)⟩)
  | _ => (s, ⟨500, ApiBody.empty⟩)

/-- `router.post('/item')`: `lastId` is incremented first, also when the
request is then refused. -/
def routerPost (body : Obj) (s : Server) : Server × ApiResponse :=
  let id := s.lastId + 1
  let item := body
  if getProp item "name" = JsVal.undefined ∨ getProp item "name" = JsVal.null then
    (⟨s.items, id⟩, ⟨400, ApiBody.text "Missing `name` property."⟩)
  else
    (⟨s.items ++ [setProp item "id" (JsVal.num id)], id⟩,
      ⟨200, ApiBody.item (setProp item "id" (JsVal.num id))⟩)

/-- The route a request is handled by. -/
def handleRequest (request : ApiRequest) (s : Server) : Server × ApiResponse :=
  match request with
  | ApiRequest.getItems => routerGet s
  | ApiRequest.deleteItem id => routerDelete id s
  | ApiRequest.patchItem id directive => routerPatch id directive s
  | ApiRequest.postItem body => routerPost body s

/-- The server after a sequence of requests. -/
def runApi (requests : List ApiRequest) (s : Server) : Server :=
  requests.foldl (fun st request => (handleRequest request st).1) s

/-- The request does not replace the `id` property of an item. -/
def ApiRequest.keepsIds : ApiRequest → Bool
  | ApiRequest.patchItem _ directive =>
    match getProp directive "path" with
    | JsVal.str fullPath => decide (substringFromOne fullPath ≠ "id")
    | _ => true
  | _ => true

/-! ## Client and server together -/

/-- The JSON value of a patch value. -/
def PatchValue.toJs : PatchValue → JsVal
  | PatchValue.bool b => JsVal.bool b
  | PatchValue.str s => JsVal.str s

/-- A request of the client as it reaches the API. -/
def Request.toApi : Request → ApiRequest
  | Request.getItems => ApiRequest.getItems
  | Request.postItem name => ApiRequest.postItem [("name", JsVal.str name)]
  | Request.patchItem id path value =>
    ApiRequest.patchItem id
      [("op", JsVal.str "replace"), ("path", JsVal.str path), ("value", value.toJs)]
  | Request.deleteItem id => ApiRequest.deleteItem id

/-- A JSON object of the API read as an item record of the client (it needs a
numeric `id` and a string `name`). -/
def toItem (o : Obj) : Option Item :=
  match getProp o "id", getProp o "name" with
  | JsVal.num id, JsVal.str name =>
    some ⟨id, name,
      (match getProp o "completed" with
        | JsVal.bool b => some b
        | _ => none),
      (match getProp o "archived" with
        | JsVal.bool b => some b
        | _ => none)⟩
  | _, _ => none

/-! ## Sequences of operations -/

/-- A call on the store as the renderer and the delete path make them:
`ui.updateItem` with any arguments, or `store.removeItemFromList`. -/
inductive StoreOp where
  | updateItem (newItem : Item) (itemEl : Option ItemEl) (documentFragment : Option (List ItemEl))
  | removeItemFromList (id : Int)
deriving DecidableEq, Repr

/-- The state after one such call. -/
def applyStoreOp (env : Env) (op : StoreOp) (s : State) : State :=
  match op with
  | StoreOp.updateItem newItem itemEl documentFragment =>
    (updateItem env newItem itemEl documentFragment s).state
  | StoreOp.removeItemFromList id => ⟨removeItemFromList env s.items id, s.list⟩

/-- The state after a sequence of such calls. -/
def runStoreOps (env : Env) (ops : List StoreOp) (s : State) : State :=
  ops.foldl (fun st op => applyStoreOp env op st) s

/-- The success continuation of a controller operation: of an add (the created
item arrives), of an update (the patched item arrives), of a delete. -/
inductive Op where
  | add (item : Item)
  | update (item : Item)
  | delete (id : Int)
deriving DecidableEq, Repr

/-- One continuation: `groceries.ui.updateItem(newItem)` for an add or an
update, the continuation of `ui.deleteItem(id)` for a delete. -/
def step (env : Env) (op : Op) (s : State) : State × Status :=
  match op with
  | Op.add item => ((updateItem env item none none s).state, (updateItem env item none none s).status)
  | Op.update item =>
    ((updateItem env item none none s).state, (updateItem env item none none s).status)
  | Op.delete id => deleteItemDone env id s

/-- A sequence of continuations, each on the state the one before left (also
when that one threw): the final state, and whether all of them completed. -/
def run (env : Env) : List Op → State → State × Bool
  | [], s => (s, true)
  | op :: ops, s =>
    let r := step env op s
    let rest := run env ops r.1
    (rest.1, decide (r.2 = Status.ok) && rest.2)

/-! ## A race of two toggles -/

/-- A page with the given store and list, no error shown, nothing deleted yet. -/
def page (s : State) : App := ⟨s, ⟨none, true, false⟩, "", none, none, true, [], 0⟩

/-- One item, not completed, rendered by `updateItem`. -/
def raceStart : State :=
  (updateItem modernEnv ⟨1, "Milk", some false, none⟩ none none emptyState).state

/-- The user has clicked the checkbox of the item twice; neither response is in yet. -/
def raceClicked : State := clickCheckbox 0 (clickCheckbox 0 raceStart)

/-- The response to the second click (`completed: false`) is reconciled first,
the response to the first click (`completed: true`) last. -/
def raceEnd : State :=
  (updateItem modernEnv ⟨1, "Milk", some true, none⟩ none none
    (updateItem modernEnv ⟨1, "Milk", some false, none⟩ none none raceClicked).state).state

/-! ## Two deletes in a row -/

/-- The response bodies of the scenarios below, read as JSON: the body names
the item and its new state. -/
def scenarioParse (text : String) : Option Item :=
  if text = "milk archived" then some ⟨1, "Milk", none, some true⟩
  else if text = "eggs archived" then some ⟨2, "Eggs", none, some true⟩
  else if text = "milk restored" then some ⟨1, "Milk", none, some false⟩
  else none

/-- Two items rendered by `updateItem`. -/
def twoItems : State :=
  (updateItem modernEnv ⟨2, "Eggs", none, none⟩ none none
    (updateItem modernEnv ⟨1, "Milk", none, none⟩ none none emptyState).state).state

/-- The delete button of the first item was clicked and the archive request succeeded. -/
def afterOneDelete : App :=
  perform modernEnv scenarioParse (Gesture.deleteClick 0)
    (Fetched.response ⟨200, "milk archived"⟩) (page twoItems)

/-- Then, within the ten seconds, the delete button of the second item was
clicked and its archive request succeeded. -/
def afterTwoDeletes : App :=
  perform modernEnv scenarioParse (Gesture.deleteClick 1)
    (Fetched.response ⟨200, "eggs archived"⟩) afterOneDelete

/-- After one delete the countdown fired and its `DELETE` request succeeded. -/
def afterCountdown : App :=
  perform modernEnv scenarioParse (Gesture.timeout 0) (Fetched.response ⟨200, ""⟩) afterOneDelete

/-! ## An edit to the empty name -/

/-- The first item of the server rendered on the page, in edit mode (the edit
button was clicked), its input emptied by the user. -/
def editingWithEmptyInput : App :=
  page ⟨[⟨0, "Bananas", none, none⟩], [⟨some 0, "Bananas", false, false, false, true, ""⟩]⟩

/-- The API requests of a client that patched the `id` of the first item. -/
def patchedId : List ApiRequest :=
  [ApiRequest.patchItem (some 0)
    [("op", JsVal.str "replace"), ("path", JsVal.str "/id"), ("value", JsVal.num 3)]]

/-- Every item of the server has a numeric `id` that is at most `lastId`. -/
def IdsAssigned (s : Server) : Prop :=
  ∀ item ∈ s.items, ∃ n : Int, getProp item "id" = JsVal.num n ∧ n ≤ s.lastId

/-! ## Lemmas on the shims and on `splice` -/

theorem someItemLoop_eq_arrayFind {α : Type} (callback : α → Bool) (l : List α) :
    someItemLoop callback l none = arrayFind callback l := by
  induction l with
  | nil => rfl
  | cons x xs ih => simp [someItemLoop, arrayFind, ih]

theorem findInArray_eq_arrayFind {α : Type} (env : Env) (l : List α) (callback : α → Bool) :
    findInArray env l callback = arrayFind callback l := by
  unfold findInArray
  split
  · rfl
  · exact someItemLoop_eq_arrayFind callback l

theorem someIndexLoop_eq {α : Type} (callback : α → Bool) (l : List α) (k : Nat) (m : JsIndex) :
    someIndexLoop callback l k m =
      match firstIndex callback l with
      | some i => JsIndex.num ((k + i : Nat) : Int)
      | none => m := by
  induction l generalizing k with
  | nil => rfl
  | cons x xs ih =>
    unfold someIndexLoop firstIndex
    by_cases hx : callback x = true
    · simp [hx]
    · simp only [hx, if_false, Bool.false_eq_true]
      rw [ih (k + 1)]
      cases firstIndex callback xs with
      | none => rfl
      | some i => simp [Nat.add_assoc, Nat.add_comm 1 i]

/-- Either nothing in the list matches, or the list splits at its first match. -/
theorem split_first {α : Type} (callback : α → Bool) (l : List α) :
    (∀ x ∈ l, callback x = false) ∨
      ∃ pre x post, l = pre ++ x :: post ∧ (∀ y ∈ pre, callback y = false) ∧ callback x = true := by
  induction l with
  | nil => left; simp
  | cons a as ih =>
    by_cases ha : callback a = true
    · right; exact ⟨[], a, as, rfl, by simp, ha⟩
    · have ha2 : callback a = false := by simpa using ha
      rcases ih with h | ⟨pre, x, post, h1, h2, h3⟩
      · left
        intro y hy
        rcases List.mem_cons.1 hy with rfl | hy
        · exact ha2
        · exact h y hy
      · right
        refine ⟨a :: pre, x, post, by simp [h1], ?_, h3⟩
        intro y hy
        rcases List.mem_cons.1 hy with rfl | hy
        · exact ha2
        · exact h2 y hy

theorem firstIndex_none {α : Type} (callback : α → Bool) (l : List α)
    (h : ∀ x ∈ l, callback x = false) : firstIndex callback l = none := by
  induction l with
  | nil => rfl
  | cons a as ih =>
    have ha : callback a = false := h a (by simp)
    have ht : firstIndex callback as = none := ih (fun x hx => h x (by simp [hx]))
    simp [firstIndex, ha, ht]

theorem firstIndex_split {α : Type} (callback : α → Bool) (pre : List α) (x : α) (post : List α)
    (h : ∀ y ∈ pre, callback y = false) (hx : callback x = true) :
    firstIndex callback (pre ++ x :: post) = some pre.length := by
  induction pre with
  | nil => simp [firstIndex, hx]
  | cons a as ih =>
    have ha : callback a = false := h a (by simp)
    have ht := ih (fun y hy => h y (by simp [hy]))
    simp [firstIndex, ha, ht]

theorem arrayFind_none {α : Type} (callback : α → Bool) (l : List α)
    (h : ∀ x ∈ l, callback x = false) : arrayFind callback l = none := by
  induction l with
  | nil => rfl
  | cons a as ih =>
    have ha : callback a = false := h a (by simp)
    have ht : arrayFind callback as = none := ih (fun x hx => h x (by simp [hx]))
    simp [arrayFind, ha, ht]

theorem arrayFind_split {α : Type} (callback : α → Bool) (pre : List α) (x : α) (post : List α)
    (h : ∀ y ∈ pre, callback y = false) (hx : callback x = true) :
    arrayFind callback (pre ++ x :: post) = some x := by
  induction pre with
  | nil => simp [arrayFind, hx]
  | cons a as ih =>
    have ha : callback a = false := h a (by simp)
    have ht := ih (fun y hy => h y (by simp [hy]))
    simp [arrayFind, ha, ht]

/-- On a list with a match both branches of `findIndexInArray` return the index of the first match. -/
theorem findIndexInArray_split {α : Type} (env : Env) (callback : α → Bool) (pre : List α) (x : α)
    (post : List α) (h : ∀ y ∈ pre, callback y = false) (hx : callback x = true) :
    findIndexInArray env (pre ++ x :: post) callback = JsIndex.num (pre.length : Int) := by
  unfold findIndexInArray
  split
  · simp [arrayFindIndex, firstIndex_split callback pre x post h hx]
  · rw [someIndexLoop_eq, firstIndex_split callback pre x post h hx]
    simp

/-- On a list without a match the built-in branch returns `-1` and the fallback branch `null`. -/
theorem findIndexInArray_none {α : Type} (env : Env) (callback : α → Bool) (l : List α)
    (h : ∀ x ∈ l, callback x = false) :
    findIndexInArray env l callback = if env.hasFindIndex then JsIndex.num (-1) else JsIndex.null := by
  unfold findIndexInArray
  split
  · simp [arrayFindIndex, firstIndex_none callback l h]
  · rw [someIndexLoop_eq, firstIndex_none callback l h]

theorem splice_at {α : Type} (pre : List α) (x : α) (post ins : List α) :
    splice (pre ++ x :: post) (JsIndex.num (pre.length : Int)) 1 ins = pre ++ ins ++ post := by
  unfold splice
  simp only [JsIndex.toInteger]
  have h1 : ¬ ((pre.length : Int) < 0) := by omega
  have h2 : (min (pre.length : Int) ((pre ++ x :: post).length : Int)).toNat = pre.length := by
    simp only [List.length_append, List.length_cons]
    omega
  simp only [h1, if_false, h2]
  have h3 : min 1 ((pre ++ x :: post).length - pre.length) = 1 := by
    simp only [List.length_append, List.length_cons]
    omega
  rw [h3]
  simp

/-- Removing with `splice` never adds or reorders: the result is a sublist. -/
theorem splice_delete_sublist {α : Type} (l : List α) (start : JsIndex) (n : Nat) :
    (splice l start n []).Sublist l := by
  unfold splice
  simp only [List.append_nil]
  generalize (if start.toInteger < 0 then max ((l.length : Int) + start.toInteger) 0
    else min start.toInteger (l.length : Int)).toNat = a
  generalize min n (l.length - a) = b
  have h : (List.take a l ++ List.drop (a + b) l).Sublist (List.take a l ++ List.drop a l) := by
    apply List.Sublist.append_left
    rw [← List.drop_drop]
    exact List.drop_sublist b (List.drop a l)
  simpa using h

/-! ## Lemmas on the store -/

theorem getItemById_eq (env : Env) (items : List Item) (id : Int) :
    getItemById env items id = arrayFind (fun item => decide (item.id = id)) items :=
  findInArray_eq_arrayFind env items _

theorem getItemById_none_iff (env : Env) (items : List Item) (id : Int) :
    getItemById env items id = none ↔ id ∉ items.map Item.id := by
  rw [getItemById_eq]
  rcases split_first (fun item : Item => decide (item.id = id)) items with h | ⟨pre, x, post, h1, h2, h3⟩
  · rw [arrayFind_none _ _ h]
    simp only [true_iff, List.mem_map, not_exists, not_and]
    intro x hx hid
    have := h x hx
    simp [hid] at this
  · rw [h1, arrayFind_split _ pre x post h2 h3]
    have hm : id ∈ (pre ++ x :: post).map Item.id :=
      List.mem_map.2 ⟨x, by simp, by simpa using h3⟩
    constructor
    · intro hc; cases hc
    · intro hc; exact absurd hm hc

/-- A successful lookup returns the first record with the id. -/
theorem getItemById_some (env : Env) (items : List Item) (id : Int) (old : Item)
    (h : getItemById env items id = some old) :
    old.id = id ∧ ∃ pre post, items = pre ++ old :: post ∧ ∀ y ∈ pre, y.id ≠ id := by
  rw [getItemById_eq] at h
  rcases split_first (fun item : Item => decide (item.id = id)) items with h0 | ⟨pre, x, post, h1, h2, h3⟩
  · rw [arrayFind_none _ _ h0] at h
    cases h
  · rw [h1, arrayFind_split _ pre x post h2 h3] at h
    cases h
    refine ⟨by simpa using h3, pre, post, h1, ?_⟩
    intro y hy
    simpa using h2 y hy

theorem getItemById_split (env : Env) (pre post : List Item) (x : Item)
    (h : ∀ y ∈ pre, y.id ≠ x.id) : getItemById env (pre ++ x :: post) x.id = some x := by
  rw [getItemById_eq]
  exact arrayFind_split _ pre x post (by intro y hy; simpa using h y hy) (by simp)

theorem replaceItemInList_split (env : Env) (pre post : List Item) (x newItem : Item)
    (h : ∀ y ∈ pre, y.id ≠ newItem.id) (hx : x.id = newItem.id) :
    replaceItemInList env (pre ++ x :: post) newItem = pre ++ newItem :: post := by
  unfold replaceItemInList
  simp only
  rw [findIndexInArray_split env _ pre x post (by intro y hy; simpa using h y hy) (by simpa using hx)]
  have : (JsIndex.num (pre.length : Int)).geZero = true := by simp [JsIndex.geZero, JsIndex.toInteger]
  rw [this, if_pos rfl, splice_at]
  simp

theorem removeItemFromList_split (env : Env) (pre post : List Item) (x : Item) (id : Int)
    (h : ∀ y ∈ pre, y.id ≠ id) (hx : x.id = id) :
    removeItemFromList env (pre ++ x :: post) id = pre ++ post := by
  unfold removeItemFromList
  simp only
  rw [findIndexInArray_split env _ pre x post (by intro y hy; simpa using h y hy) (by simpa using hx)]
  rw [splice_at]
  simp

theorem removeItemFromList_sublist (env : Env) (items : List Item) (id : Int) :
    (removeItemFromList env items id).Sublist items :=
  splice_delete_sublist items _ 1

/-! ## Lemmas on the renderer -/

theorem modifyAt_length {α : Type} (f : α → α) (k : Nat) (l : List α) :
    (modifyAt f k l).length = l.length := by
  induction l generalizing k with
  | nil => cases k <;> rfl
  | cons x xs ih => cases k <;> simp [modifyAt, ih]

theorem modifyAt_append_last {α : Type} (f : α → α) (l : List α) (x : α) :
    modifyAt f ((l ++ [x]).length - 1) (l ++ [x]) = l ++ [f x] := by
  induction l with
  | nil => rfl
  | cons a as ih =>
    have h : ((a :: as) ++ [x]).length - 1 = ((as ++ [x]).length - 1) + 1 := by simp
    rw [h]
    show a :: modifyAt f ((as ++ [x]).length - 1) (as ++ [x]) = a :: (as ++ [f x])
    rw [ih]

theorem applyChanges_self (item : Item) (el : ItemEl) : applyChanges item item el = el := by
  simp [applyChanges]

theorem touchesElement_self (item : Item) : touchesElement item item = false := by
  simp [touchesElement]

/-- With a prior record in the store `updateItem` is its update path. -/
theorem updateItemFuel_existing (fuel : Nat) (env : Env) (newItem oldItem : Item)
    (itemEl : Option ItemEl) (documentFragment : Option (List ItemEl)) (s : State)
    (h : getItemById env s.items newItem.id = some oldItem) :
    updateItemFuel (fuel + 1) env newItem itemEl documentFragment s
      = updateExisting env newItem oldItem itemEl documentFragment s := by
  rw [updateItemFuel]
  simp only [h]

/-- Without a prior record `updateItem` stores the item and adds one element:
the template's element after the writes of the create path. -/
theorem updateItemFuel_new (fuel : Nat) (env : Env) (newItem : Item)
    (itemEl : Option ItemEl) (documentFragment : Option (List ItemEl)) (s : State)
    (h : getItemById env s.items newItem.id = none) :
    updateItemFuel (fuel + 2) env newItem itemEl documentFragment s
      = match documentFragment with
        | some fragment =>
          ⟨⟨s.items ++ [newItem], s.list⟩, itemEl,
            some (fragment ++ [applyNew newItem env.template]), Status.ok⟩
        | none =>
          ⟨⟨s.items ++ [newItem], s.list ++ [applyNew newItem env.template]⟩, itemEl, none,
            Status.ok⟩ := by
  have hpre : ∀ y ∈ s.items, y.id ≠ newItem.id := by
    intro y hy hid
    exact (getItemById_none_iff env s.items newItem.id).1 h (List.mem_map.2 ⟨y, hy, hid⟩)
  have hfound : getItemById env (s.items ++ [newItem]) newItem.id = some newItem :=
    getItemById_split env s.items [] newItem hpre
  have hrep : replaceItemInList env (s.items ++ [newItem]) newItem = s.items ++ [newItem] :=
    replaceItemInList_split env s.items [] newItem newItem hpre rfl
  have hinner : updateItemFuel (fuel + 1) env newItem (some env.template) none
      ⟨addItem s.items newItem, s.list⟩
      = ⟨⟨s.items ++ [newItem], s.list⟩, some env.template, none, Status.ok⟩ := by
    rw [updateItemFuel_existing fuel env newItem newItem _ _ _ (by simpa [addItem] using hfound)]
    simp [updateExisting, addItem, hrep, applyChanges_self]
  rw [updateItemFuel]
  simp only [h, addItemToList, createNewItemEl]
  rw [hinner]
  cases documentFragment with
  | none => simp only [modifyAt_append_last]
  | some fragment => simp only [modifyAt_append_last]

/-- The budget of two is never used up, and a larger one changes nothing. -/
theorem updateItemFuel_stable (fuel : Nat) (env : Env) (newItem : Item)
    (itemEl : Option ItemEl) (documentFragment : Option (List ItemEl)) (s : State) :
    updateItemFuel (fuel + 2) env newItem itemEl documentFragment s
        = updateItem env newItem itemEl documentFragment s
      ∧ (updateItem env newItem itemEl documentFragment s).status ≠ Status.overflow := by
  unfold updateItem
  cases h : getItemById env s.items newItem.id with
  | none =>
    rw [updateItemFuel_new fuel env newItem itemEl documentFragment s h,
      updateItemFuel_new 0 env newItem itemEl documentFragment s h]
    cases documentFragment <;> simp
  | some oldItem =>
    rw [updateItemFuel_existing (fuel + 1) env newItem oldItem itemEl documentFragment s h,
      updateItemFuel_existing 1 env newItem oldItem itemEl documentFragment s h]
    refine ⟨rfl, ?_⟩
    unfold updateExisting
    cases itemEl with
    | some el => simp
    | none =>
      cases querySelector s.list newItem.id with
      | some k => simp
      | none =>
        simp only
        split <;> simp

theorem updateItem_existing (env : Env) (newItem oldItem : Item)
    (itemEl : Option ItemEl) (documentFragment : Option (List ItemEl)) (s : State)
    (h : getItemById env s.items newItem.id = some oldItem) :
    updateItem env newItem itemEl documentFragment s
      = updateExisting env newItem oldItem itemEl documentFragment s :=
  updateItemFuel_existing 1 env newItem oldItem itemEl documentFragment s h

theorem updateItem_new (env : Env) (newItem : Item) (itemEl : Option ItemEl) (s : State)
    (h : getItemById env s.items newItem.id = none) :
    updateItem env newItem itemEl none s
      = ⟨⟨s.items ++ [newItem], s.list ++ [applyNew newItem env.template]⟩, itemEl, none,
          Status.ok⟩ :=
  updateItemFuel_new 0 env newItem itemEl none s h

theorem updateItem_new_fragment (env : Env) (newItem : Item) (itemEl : Option ItemEl)
    (fragment : List ItemEl) (s : State) (h : getItemById env s.items newItem.id = none) :
    updateItem env newItem itemEl (some fragment) s
      = ⟨⟨s.items ++ [newItem], s.list⟩, itemEl,
          some (fragment ++ [applyNew newItem env.template]), Status.ok⟩ :=
  updateItemFuel_new 0 env newItem itemEl (some fragment) s h

theorem updateItem_items (env : Env) (newItem : Item) (itemEl : Option ItemEl)
    (documentFragment : Option (List ItemEl)) (s : State) :
    (updateItem env newItem itemEl documentFragment s).state.items
      = match getItemById env s.items newItem.id with
        | none => s.items ++ [newItem]
        | some _ => replaceItemInList env s.items newItem := by
  cases h : getItemById env s.items newItem.id with
  | none =>
    cases documentFragment with
    | none => rw [updateItem_new env newItem itemEl s h]
    | some fragment => rw [updateItem_new_fragment env newItem itemEl fragment s h]
  | some oldItem =>
    rw [updateItem_existing env newItem oldItem itemEl documentFragment s h]
    unfold updateExisting
    cases itemEl with
    | some el => rfl
    | none => cases querySelector s.list newItem.id <;> rfl

/-- The ids in the store after `updateItem`: one more at the end on the create
path, the same ones on the update path. -/
theorem updateItem_ids (env : Env) (newItem : Item) (itemEl : Option ItemEl)
    (documentFragment : Option (List ItemEl)) (s : State) :
    (updateItem env newItem itemEl documentFragment s).state.items.map Item.id
      = match getItemById env s.items newItem.id with
        | none => s.items.map Item.id ++ [newItem.id]
        | some _ => s.items.map Item.id := by
  rw [updateItem_items]
  cases h : getItemById env s.items newItem.id with
  | none => simp
  | some oldItem =>
    obtain ⟨hid, pre, post, hsplit, hpre⟩ := getItemById_some env s.items newItem.id oldItem h
    simp only [hsplit]
    rw [replaceItemInList_split env pre post oldItem newItem hpre hid]
    simp [hid]

theorem updateItem_ids_nodup (env : Env) (newItem : Item) (itemEl : Option ItemEl)
    (documentFragment : Option (List ItemEl)) (s : State)
    (h : (s.items.map Item.id).Nodup) :
    ((updateItem env newItem itemEl documentFragment s).state.items.map Item.id).Nodup := by
  rw [updateItem_ids]
  cases hg : getItemById env s.items newItem.id with
  | none =>
    have hnot := (getItemById_none_iff env s.items newItem.id).1 hg
    simp only
    rw [List.nodup_append]
    refine ⟨h, List.nodup_singleton _, ?_⟩
    intro a ha hb
    rcases List.mem_singleton.1 hb with rfl
    exact hnot ha
  | some oldItem => exact h

theorem applyStoreOp_ids_nodup (env : Env) (op : StoreOp) (s : State)
    (h : (s.items.map Item.id).Nodup) :
    ((applyStoreOp env op s).items.map Item.id).Nodup := by
  cases op with
  | updateItem newItem itemEl documentFragment =>
    exact updateItem_ids_nodup env newItem itemEl documentFragment s h
  | removeItemFromList id =>
    exact List.Nodup.sublist ((removeItemFromList_sublist env s.items id).map Item.id) h

theorem runStoreOps_ids_nodup (env : Env) (ops : List StoreOp) (s : State)
    (h : (s.items.map Item.id).Nodup) :
    ((runStoreOps env ops s).items.map Item.id).Nodup := by
  induction ops generalizing s with
  | nil => exact h
  | cons op ops ih => exact ih (applyStoreOp env op s) (applyStoreOp_ids_nodup env op s h)

/-- On the built-in branch a replace of an absent id leaves the store as it is. -/
theorem replaceItemInList_absent_builtin (env : Env) (items : List Item) (newItem : Item)
    (hb : env.hasFindIndex = true) (h : getItemById env items newItem.id = none) :
    replaceItemInList env items newItem = items := by
  have hnot := (getItemById_none_iff env items newItem.id).1 h
  have hall : ∀ x ∈ items, (fun item : Item => decide (item.id = newItem.id)) x = false := by
    intro x hx
    have : x.id ≠ newItem.id := fun hid => hnot (List.mem_map.2 ⟨x, hx, hid⟩)
    simpa using this
  unfold replaceItemInList
  simp only
  rw [findIndexInArray_none env _ items hall]
  simp [hb, JsIndex.geZero, JsIndex.toInteger]

/-! ## Store and list side by side -/

theorem firstIndex_some_split {α : Type} (callback : α → Bool) (l : List α) (k : Nat)
    (h : firstIndex callback l = some k) :
    ∃ pre x post, l = pre ++ x :: post ∧ pre.length = k ∧ (∀ y ∈ pre, callback y = false)
      ∧ callback x = true := by
  rcases split_first callback l with h0 | ⟨pre, x, post, h1, h2, h3⟩
  · rw [firstIndex_none callback l h0] at h
    cases h
  · rw [h1, firstIndex_split callback pre x post h2 h3] at h
    exact ⟨pre, x, post, h1, Option.some.inj h, h2, h3⟩

theorem firstIndex_map {α β : Type} (f : α → β) (callback : β → Bool) (l : List α) :
    firstIndex callback (l.map f) = firstIndex (fun x => callback (f x)) l := by
  induction l with
  | nil => rfl
  | cons a as ih => simp [firstIndex, ih]

theorem removeAt_append {α : Type} (pre : List α) (x : α) (post : List α) :
    removeAt pre.length (pre ++ x :: post) = pre ++ post := by
  induction pre with
  | nil => rfl
  | cons a as ih =>
    show a :: removeAt as.length (as ++ x :: post) = a :: (as ++ post)
    rw [ih]

theorem map_removeAt {α β : Type} (f : α → β) (k : Nat) (l : List α) :
    (removeAt k l).map f = removeAt k (l.map f) := by
  induction l generalizing k with
  | nil => cases k <;> rfl
  | cons a as ih => cases k <;> simp [removeAt, ih]

theorem map_modifyAt {α β : Type} (f : α → β) (g : α → α) (hg : ∀ x, f (g x) = f x) (k : Nat)
    (l : List α) : (modifyAt g k l).map f = l.map f := by
  induction l generalizing k with
  | nil => cases k <;> rfl
  | cons a as ih => cases k <;> simp [modifyAt, ih, hg]

theorem removeAt_sublist {α : Type} (k : Nat) (l : List α) : (removeAt k l).Sublist l := by
  induction l generalizing k with
  | nil => cases k <;> exact List.Sublist.refl _
  | cons a as ih =>
    cases k with
    | zero => exact List.sublist_cons_self a as
    | succ k => exact List.Sublist.cons₂ a (ih k)

theorem applyChanges_dataId (newItem oldItem : Item) (el : ItemEl) :
    (applyChanges newItem oldItem el).dataId = el.dataId := by
  unfold applyChanges
  simp only
  split_ifs <;> rfl

/-- When the first record with the id is at position `k`, `removeItemFromList` removes position `k`. -/
theorem removeItemFromList_of_firstIndex (env : Env) (items : List Item) (id : Int) (k : Nat)
    (h : firstIndex (fun item : Item => decide (item.id = id)) items = some k) :
    removeItemFromList env items id = removeAt k items := by
  obtain ⟨pre, x, post, h1, hlen, h2, h3⟩ := firstIndex_some_split _ items k h
  subst hlen
  rw [h1, removeAt_append]
  exact removeItemFromList_split env pre post x id (by intro y hy; simpa using h2 y hy)
    (by simpa using h3)

/-- The list shows the records of the store, in the store's order, one element
per record, and no two records share an id. -/
def Agrees (s : State) : Prop :=
  s.list.map ItemEl.dataId = s.items.map (fun item => some item.id)
    ∧ (s.items.map Item.id).Nodup

theorem updateItem_list_dataIds (env : Env) (newItem : Item) (s : State) :
    (updateItem env newItem none none s).state.list.map ItemEl.dataId
      = match getItemById env s.items newItem.id with
        | none => s.list.map ItemEl.dataId ++ [some newItem.id]
        | some _ => s.list.map ItemEl.dataId := by
  cases h : getItemById env s.items newItem.id with
  | none =>
    rw [updateItem_new env newItem none s h]
    simp [applyNew]
  | some oldItem =>
    rw [updateItem_existing env newItem oldItem none none s h]
    unfold updateExisting
    cases querySelector s.list newItem.id with
    | none => rfl
    | some k =>
      simp only
      exact map_modifyAt ItemEl.dataId _ (applyChanges_dataId newItem oldItem) k s.list

theorem updateItem_agrees (env : Env) (newItem : Item) (s : State) (h : Agrees s) :
    Agrees (updateItem env newItem none none s).state := by
  refine ⟨?_, updateItem_ids_nodup env newItem none none s h.2⟩
  rw [updateItem_list_dataIds, updateItem_items]
  cases hg : getItemById env s.items newItem.id with
  | none => simp [h.1]
  | some oldItem =>
    obtain ⟨hid, pre, post, hsplit, hpre⟩ := getItemById_some env s.items newItem.id oldItem hg
    simp only
    rw [h.1, hsplit, replaceItemInList_split env pre post oldItem newItem hpre hid]
    simp [hid]

theorem deleteItemDone_agrees (env : Env) (id : Int) (s : State) (h : Agrees s)
    (hok : (deleteItemDone env id s).2 = Status.ok) : Agrees (deleteItemDone env id s).1 := by
  unfold deleteItemDone at hok ⊢
  cases hq : querySelector s.list id with
  | none => simp [hq] at hok
  | some k =>
    have hk : firstIndex (fun item : Item => decide (item.id = id)) s.items = some k := by
      have h1 : firstIndex (fun x : Option Int => decide (x = some id)) (s.list.map ItemEl.dataId)
          = some k := by
        rw [firstIndex_map]
        exact hq
      rw [h.1, firstIndex_map] at h1
      simpa using h1
    simp only
    rw [removeItemFromList_of_firstIndex env s.items id k hk]
    refine ⟨?_, ?_⟩
    · show (removeAt k s.list).map ItemEl.dataId
        = (removeAt k s.items).map (fun item => some item.id)
      rw [map_removeAt, map_removeAt, h.1]
    · show ((removeAt k s.items).map Item.id).Nodup
      exact List.Nodup.sublist ((removeAt_sublist k s.items).map Item.id) h.2

theorem step_agrees (env : Env) (op : Op) (s : State) (h : Agrees s)
    (hok : (step env op s).2 = Status.ok) : Agrees (step env op s).1 := by
  cases op with
  | add item => exact updateItem_agrees env item s h
  | update item => exact updateItem_agrees env item s h
  | delete id => exact deleteItemDone_agrees env id s h hok

theorem run_agrees (env : Env) (ops : List Op) (s : State) (h : Agrees s)
    (hok : (run env ops s).2 = true) : Agrees (run env ops s).1 := by
  induction ops generalizing s with
  | nil => exact h
  | cons op ops ih =>
    simp only [run, Bool.and_eq_true, decide_eq_true_eq] at hok ⊢
    exact ih (step env op s).1 (step_agrees env op s h hok.1) hok.2

/-! ## The update path on an unchanged record -/

theorem modifyAt_id {α : Type} (f : α → α) (hf : ∀ x, f x = x) (k : Nat) (l : List α) :
    modifyAt f k l = l := by
  induction l generalizing k with
  | nil => cases k <;> rfl
  | cons a as ih => cases k <;> simp [modifyAt, ih, hf]

theorem get?_modifyAt {α : Type} (f : α → α) (k j : Nat) (l : List α) :
    (modifyAt f k l).get? j = if j = k then (l.get? j).map f else l.get? j := by
  induction l generalizing k j with
  | nil => cases k <;> simp [modifyAt]
  | cons a as ih =>
    cases k with
    | zero => cases j <;> simp [modifyAt]
    | succ k =>
      cases j with
      | zero => simp [modifyAt]
      | succ j => simpa [modifyAt] using ih k j

theorem getItemById_after_updateItem (env : Env) (r : Item) (itemEl : Option ItemEl)
    (documentFragment : Option (List ItemEl)) (s : State) :
    getItemById env (updateItem env r itemEl documentFragment s).state.items r.id = some r := by
  rw [updateItem_items]
  cases h : getItemById env s.items r.id with
  | none =>
    have hpre : ∀ y ∈ s.items, y.id ≠ r.id := by
      intro y hy hid
      exact (getItemById_none_iff env s.items r.id).1 h (List.mem_map.2 ⟨y, hy, hid⟩)
    exact getItemById_split env s.items [] r hpre
  | some oldItem =>
    obtain ⟨hid, pre, post, hsplit, hpre⟩ := getItemById_some env s.items r.id oldItem h
    simp only
    rw [hsplit, replaceItemInList_split env pre post oldItem r hpre hid]
    exact getItemById_split env pre post r hpre

/-- Reconciling the record the store already holds changes nothing and does not throw. -/
theorem updateExisting_self (env : Env) (r : Item) (s : State)
    (h : getItemById env s.items r.id = some r) :
    updateExisting env r r none none s = ⟨s, none, none, Status.ok⟩ := by
  obtain ⟨_, pre, post, hsplit, hpre⟩ := getItemById_some env s.items r.id r h
  have hrep : replaceItemInList env s.items r = s.items := by
    rw [hsplit]
    exact replaceItemInList_split env pre post r r hpre rfl
  unfold updateExisting
  simp only [hrep]
  cases querySelector s.list r.id with
  | none => simp [touchesElement_self]
  | some k => simp [modifyAt_id _ (applyChanges_self r) k s.list]

/-! ## Failed requests -/

theorem sendRequest_failure {α : Type} (parse : String → Option α) (method : String)
    (fetched : Fetched) (alert : Alert) (h : fetched.isFailure = true) :
    ∃ failure alert2, sendRequest parse method fetched alert = (Settled.rejected failure, alert2) := by
  cases fetched with
  | failed => exact ⟨_, _, rfl⟩
  | response r =>
    have hr : r.ok = false := by simpa [Fetched.isFailure] using h
    exact ⟨Failure.error (errorMessage r), showError (errorMessage r) alert,
      by simp [sendRequest, hr]⟩

theorem thenUpdateItem_failure (env : Env) (parse : String → Option Item) (method : String)
    (fetched : Fetched) (next : App → App) (app : App) (h : fetched.isFailure = true) :
    (thenUpdateItem env parse method fetched next app).view = app.view := by
  obtain ⟨failure, alert2, hs⟩ := sendRequest_failure parse method fetched app.alert h
  simp [thenUpdateItem, hs]

theorem deleteItemSettle_failure (env : Env) (parse : String → Option Item) (id : Option Int)
    (fetched : Fetched) (app : App) (h : fetched.isFailure = true) :
    (deleteItemSettle env parse id fetched app).view = app.view := by
  obtain ⟨failure, alert2, hs⟩ := sendRequest_failure parse "DELETE" fetched app.alert h
  simp [deleteItemSettle, hs]

/-- No continuation of a handler touches the store or the list when its request failed. -/
theorem handlerSettle_failure (env : Env) (parse : String → Option Item) (g : Gesture)
    (request : Request) (fetched : Fetched) (app : App) (h : fetched.isFailure = true) :
    (handlerSettle env parse g request fetched app).view = app.view := by
  cases g with
  | addSubmit =>
    obtain ⟨failure, alert2, hs⟩ := sendRequest_failure parse "POST" fetched app.alert h
    simp [handlerSettle, hs]
  | completedChange k => exact thenUpdateItem_failure env parse _ fetched _ app h
  | deleteClick k =>
    cases request <;> exact thenUpdateItem_failure env parse _ fetched _ app h
  | editSubmit k => exact thenUpdateItem_failure env parse _ fetched _ app h
  | undoClick => exact thenUpdateItem_failure env parse _ fetched _ app h
  | closeClick =>
    cases request <;> first
      | exact deleteItemSettle_failure env parse _ fetched app h
      | rfl
  | timeout handle =>
    cases request <;> first
      | exact deleteItemSettle_failure env parse _ fetched app h
      | rfl

theorem modifyAt_of_get?_none {α : Type} (f : α → α) (k : Nat) (l : List α)
    (h : l.get? k = none) : modifyAt f k l = l := by
  induction l generalizing k with
  | nil => cases k <;> rfl
  | cons a as ih =>
    cases k with
    | zero => simp at h
    | succ k =>
      show a :: modifyAt f k as = a :: as
      rw [ih k (by simpa using h)]

/-! ## The undo prompt -/

theorem sendRequest_json {α : Type} (parse : String → Option α) (method : String) (r : Response)
    (alert : Alert) (v : α) (hok : r.ok = true) (hm : toLowerCase method ≠ "delete")
    (hp : parse r.text = some v) :
    sendRequest parse method (Fetched.response r) alert = (Settled.resolved (Payload.json v), alert) := by
  simp [sendRequest, hok, hm, hp]

/-- A `.then(updateItem)` with nothing chained after it leaves the undo state alone. -/
theorem thenUpdateItem_undo_state (env : Env) (parse : String → Option Item) (method : String)
    (fetched : Fetched) (app : App) :
    (thenUpdateItem env parse method fetched id app).lastDeletedItemId = app.lastDeletedItemId
      ∧ (thenUpdateItem env parse method fetched id app).undoTimer = app.undoTimer
      ∧ (thenUpdateItem env parse method fetched id app).promptHidden = app.promptHidden
      ∧ (thenUpdateItem env parse method fetched id app).timers = app.timers := by
  unfold thenUpdateItem
  split
  · simp only
    split <;> exact ⟨rfl, rfl, rfl, rfl⟩
  · exact ⟨rfl, rfl, rfl, rfl⟩

/-- The settlement of a `DELETE` leaves the undo state alone. -/
theorem deleteItemSettle_undo_state (env : Env) (parse : String → Option Item) (itemId : Option Int)
    (fetched : Fetched) (app : App) :
    (deleteItemSettle env parse itemId fetched app).lastDeletedItemId = app.lastDeletedItemId
      ∧ (deleteItemSettle env parse itemId fetched app).undoTimer = app.undoTimer
      ∧ (deleteItemSettle env parse itemId fetched app).promptHidden = app.promptHidden
      ∧ (deleteItemSettle env parse itemId fetched app).timers = app.timers := by
  unfold deleteItemSettle
  split <;> exact ⟨rfl, rfl, rfl, rfl⟩

/-- With a prior record and its element found, `updateItem` replaces the record
and applies the changes to that element. -/
theorem updateItem_located (env : Env) (newItem oldItem : Item)
    (documentFragment : Option (List ItemEl)) (s : State) (k : Nat)
    (hold : getItemById env s.items newItem.id = some oldItem)
    (hq : querySelector s.list newItem.id = some k) :
    updateItem env newItem none documentFragment s
      = ⟨⟨replaceItemInList env s.items newItem, modifyAt (applyChanges newItem oldItem) k s.list⟩,
          none, documentFragment, Status.ok⟩ := by
  rw [updateItem_existing env newItem oldItem none documentFragment s hold]
  unfold updateExisting
  simp only [hq]

/-- On an element whose `hidden` attribute matches the prior record, the update
path leaves it matching the new record. -/
theorem applyChanges_hidden (newItem oldItem : Item) (el : ItemEl)
    (h : el.hidden = truthy oldItem.archived) :
    (applyChanges newItem oldItem el).hidden = truthy newItem.archived := by
  unfold applyChanges
  by_cases ha : newItem.archived = oldItem.archived
  · simp only [ha, ne_eq, not_true_eq_false, if_false]
    split_ifs <;> simp [h]
  · simp only [ne_eq, ha, not_false_eq_true, if_true]
    split_ifs <;> rfl

/-- The `hidden` attribute after the update path: written when `archived`
differs from the prior record, left as it was otherwise. -/
theorem applyChanges_hidden_eq (newItem oldItem : Item) (el : ItemEl) :
    (applyChanges newItem oldItem el).hidden
      = if newItem.archived ≠ oldItem.archived then truthy newItem.archived else el.hidden := by
  unfold applyChanges
  split_ifs <;> rfl

theorem get?_append_length {α : Type} (pre : List α) (x : α) (post : List α) :
    (pre ++ x :: post).get? pre.length = some x := by
  induction pre with
  | nil => rfl
  | cons a as ih => simpa using ih

theorem querySelector_dataId (list : List ItemEl) (id : Int) (k : Nat) (el : ItemEl)
    (hq : querySelector list id = some k) (hel : list.get? k = some el) : el.dataId = some id := by
  obtain ⟨pre, x, post, h1, hlen, _, h3⟩ := firstIndex_some_split _ list k hq
  subst hlen
  rw [h1, get?_append_length] at hel
  cases hel
  simpa using h3

/-- Undo, close and a firing countdown leave `lastDeletedItemId` as it was, whatever the
outcome of their request. -/
theorem perform_keeps_lastDeletedItemId (env : Env) (parse : String → Option Item) (g : Gesture)
    (fetched : Fetched) (app : App)
    (hg : g = Gesture.undoClick ∨ g = Gesture.closeClick ∨ ∃ handle, g = Gesture.timeout handle) :
    (perform env parse g fetched app).lastDeletedItemId = app.lastDeletedItemId := by
  rcases hg with rfl | rfl | ⟨handle, rfl⟩
  · simp only [perform, handlerBegin, handlerSettle]
    rw [(thenUpdateItem_undo_state env parse "PATCH" fetched _).1]
  · simp only [perform, handlerBegin, handlerSettle]
    rw [(deleteItemSettle_undo_state env parse _ fetched _).1]
  · simp only [perform, handlerBegin]
    cases app.timers.find? (fun t => decide (t.1 = handle)) with
    | none => rfl
    | some t =>
      simp only [handlerSettle]
      rw [(deleteItemSettle_undo_state env parse _ fetched _).1]

/-- After undo or close the prompt is hidden and the remembered countdown is
gone, whatever the outcome of the request. -/
theorem perform_undo_or_close (env : Env) (parse : String → Option Item) (g : Gesture)
    (fetched : Fetched) (app : App) (hg : g = Gesture.undoClick ∨ g = Gesture.closeClick) :
    (perform env parse g fetched app).promptHidden = true
      ∧ (perform env parse g fetched app).timers = clearTimeout app.undoTimer app.timers := by
  rcases hg with rfl | rfl
  · simp only [perform, handlerBegin, handlerSettle]
    rw [(thenUpdateItem_undo_state env parse "PATCH" fetched _).2.2.1,
      (thenUpdateItem_undo_state env parse "PATCH" fetched _).2.2.2]
    exact ⟨rfl, rfl⟩
  · simp only [perform, handlerBegin, handlerSettle]
    rw [(deleteItemSettle_undo_state env parse _ fetched _).2.2.1,
      (deleteItemSettle_undo_state env parse _ fetched _).2.2.2]
    exact ⟨rfl, rfl⟩

/-- After a pending countdown fired the prompt is hidden and that countdown is gone. -/
theorem perform_timeout (env : Env) (parse : String → Option Item) (handle : Nat)
    (fetched : Fetched) (app : App) (t : Nat × Option Int)
    (ht : app.timers.find? (fun t => decide (t.1 = handle)) = some t) :
    (perform env parse (Gesture.timeout handle) fetched app).promptHidden = true
      ∧ (perform env parse (Gesture.timeout handle) fetched app).timers
          = app.timers.filter (fun t => decide (t.1 ≠ handle)) := by
  simp only [perform, handlerBegin, ht, handlerSettle]
  rw [(deleteItemSettle_undo_state env parse _ fetched _).2.2.1,
    (deleteItemSettle_undo_state env parse _ fetched _).2.2.2]
  exact ⟨rfl, rfl⟩

/-! ## The initial load -/

/-- With a fragment, `updateItem` leaves the `data-id`s of the list as they are
and adds to the fragment at most the element of the new item. -/
theorem updateItem_with_fragment (env : Env) (item : Item) (fragment : List ItemEl) (s : State) :
    (updateItem env item none (some fragment) s).state.list.map ItemEl.dataId
        = s.list.map ItemEl.dataId
      ∧ ((updateItem env item none (some fragment) s).documentFragment = some fragment
        ∨ (updateItem env item none (some fragment) s).documentFragment
            = some (fragment ++ [applyNew item env.template])) := by
  cases h : getItemById env s.items item.id with
  | none =>
    rw [updateItem_new_fragment env item none fragment s h]
    exact ⟨rfl, Or.inr rfl⟩
  | some oldItem =>
    rw [updateItem_existing env item oldItem none (some fragment) s h]
    unfold updateExisting
    cases querySelector s.list item.id with
    | none => exact ⟨rfl, Or.inl rfl⟩
    | some k =>
      exact ⟨map_modifyAt ItemEl.dataId _ (applyChanges_dataId item oldItem) k s.list, Or.inl rfl⟩

/-- An id that no item to load carries unless archived stays out of the store,
the list and the fragment. -/
theorem loadItemsLoop_skips (env : Env) (id : Int) (items : List Item)
    (hitems : ∀ y ∈ items, y.id = id → truthy y.archived = true)
    (fragment : List ItemEl) (s : State)
    (hs : id ∉ s.items.map Item.id) (hl : some id ∉ s.list.map ItemEl.dataId)
    (hf : some id ∉ fragment.map ItemEl.dataId) :
    id ∉ (loadItemsLoop env items fragment s).1.items.map Item.id
      ∧ some id ∉ (loadItemsLoop env items fragment s).1.list.map ItemEl.dataId
      ∧ some id ∉ (loadItemsLoop env items fragment s).2.1.map ItemEl.dataId := by
  induction items generalizing fragment s with
  | nil => exact ⟨hs, hl, hf⟩
  | cons item rest ih =>
    have hrest : ∀ y ∈ rest, y.id = id → truthy y.archived = true :=
      fun y hy => hitems y (List.mem_cons_of_mem _ hy)
    unfold loadItemsLoop
    by_cases ha : truthy item.archived = true
    · simp only [ha, if_true]
      exact ih hrest fragment s hs hl hf
    · simp only [ha, if_false, Bool.false_eq_true]
      have hne : item.id ≠ id := fun h => ha (hitems item (List.mem_cons_self _ _) h)
      have hids : id ∉ (updateItem env item none (some fragment) s).state.items.map Item.id := by
        rw [updateItem_ids]
        cases getItemById env s.items item.id with
        | none =>
          simp only [List.mem_append, List.mem_singleton, not_or]
          exact ⟨hs, fun h => hne h.symm⟩
        | some oldItem => exact hs
      obtain ⟨hlist, hfrag⟩ := updateItem_with_fragment env item fragment s
      have hl2 : some id ∉ (updateItem env item none (some fragment) s).state.list.map
          ItemEl.dataId := by
        rw [hlist]
        exact hl
      have hf2 : some id ∉ (match (updateItem env item none (some fragment) s).documentFragment with
          | some f => f
          | none => fragment).map ItemEl.dataId := by
        rcases hfrag with h | h
        · rw [h]
          exact hf
        · rw [h]
          simp only [List.map_append, List.mem_append, not_or]
          refine ⟨hf, ?_⟩
          simp only [applyNew, List.map_cons, List.map_nil, List.mem_singleton]
          intro h2
          exact hne (Option.some.inj h2).symm
      split
      · exact ih hrest _ _ hids hl2 hf2
      · exact ⟨hids, hl2, hf2⟩

theorem querySelector_none_of_not_mem (list : List ItemEl) (id : Int)
    (h : some id ∉ list.map ItemEl.dataId) : querySelector list id = none := by
  apply firstIndex_none
  intro el hel
  have : el.dataId ≠ some id := fun hd => h (List.mem_map.2 ⟨el, hel, hd⟩)
  simpa using this

/-- After the initial load, an id that the response carries on archived items
only is not in the store and on no element of the list. -/
theorem loadInitialItemsThen_skips (env : Env) (id : Int) (items : List Item)
    (hitems : ∀ y ∈ items, y.id = id → truthy y.archived = true) (s : State)
    (hs : id ∉ s.items.map Item.id) (hl : some id ∉ s.list.map ItemEl.dataId) :
    getItemById env (loadInitialItemsThen env items s).1.items id = none
      ∧ querySelector (loadInitialItemsThen env items s).1.list id = none := by
  obtain ⟨h1, h2, h3⟩ := loadItemsLoop_skips env id items hitems [] s hs hl (by simp)
  unfold loadInitialItemsThen
  split
  · rename_i s1 fragment heq
    rw [heq] at h1 h2 h3
    refine ⟨(getItemById_none_iff env _ id).2 h1, querySelector_none_of_not_mem _ id ?_⟩
    simp only [List.map_append, List.mem_append, not_or]
    exact ⟨h2, h3⟩
  · rename_i s1 fragment status hne heq
    rw [heq] at h1 h2
    exact ⟨(getItemById_none_iff env _ id).2 h1, querySelector_none_of_not_mem _ id h2⟩

/-! ## The add form -/

theorem trim_empty : trim "" = "" := by decide

/-- The add handler sends nothing when the trimmed input is empty. -/
theorem addSubmit_blank (app : App) (h : (trim app.addInput).length = 0) :
    handlerBegin Gesture.addSubmit app = (app, none) := by
  simp [handlerBegin, h]

/-- What the add handler sends is a creation request with the input as name,
and that name is not empty. -/
theorem addSubmit_request (app : App) (request : Request)
    (h : (handlerBegin Gesture.addSubmit app).2 = some request) :
    request = Request.postItem app.addInput ∧ app.addInput ≠ "" := by
  simp only [handlerBegin] at h
  split_ifs at h with hlen
  · refine ⟨(Option.some.inj h).symm, ?_⟩
    intro he
    rw [he, trim_empty] at hlen
    exact absurd hlen (by decide)

/-! ## The server -/

theorem getProp_setProp_same (o : Obj) (key : String) (v : JsVal) :
    getProp (setProp o key v) key = v := by
  induction o with
  | nil => simp [setProp, getProp]
  | cons p rest ih =>
    unfold setProp
    by_cases hp : p.1 = key
    · simp [hp, getProp]
    · simp [hp, getProp, ih]

theorem getProp_setProp_other (o : Obj) (key other : String) (v : JsVal) (h : key ≠ other) :
    getProp (setProp o key v) other = getProp o other := by
  induction o with
  | nil => simp [setProp, getProp, h]
  | cons p rest ih =>
    unfold setProp
    by_cases hp : p.1 = key
    · have hpo : p.1 ≠ other := fun he => h (hp ▸ he)
      simp [hp, getProp, h, hpo]
    · have hok : ¬ other = key := fun he => h he.symm
      by_cases hpo : p.1 = other
      · simp [getProp, hpo, hok]
      · simp [hp, getProp, hpo, ih]

theorem mem_modifyAt {α : Type} (f : α → α) (k : Nat) (l : List α) (x : α)
    (h : x ∈ modifyAt f k l) : x ∈ l ∨ ∃ y ∈ l, x = f y := by
  induction l generalizing k with
  | nil => cases k <;> simp [modifyAt] at h
  | cons a as ih =>
    cases k with
    | zero =>
      simp only [modifyAt, List.mem_cons] at h
      rcases h with h | h
      · exact Or.inr ⟨a, by simp, h⟩
      · exact Or.inl (by simp [h])
    | succ k =>
      simp only [modifyAt, List.mem_cons] at h
      rcases h with h | h
      · exact Or.inl (by simp [h])
      · rcases ih k h with h2 | ⟨y, hy, hxy⟩
        · exact Or.inl (by simp [h2])
        · exact Or.inr ⟨y, by simp [hy], hxy⟩

theorem handleRequest_idsAssigned (request : ApiRequest) (s : Server) (h : IdsAssigned s)
    (hk : request.keepsIds = true) : IdsAssigned (handleRequest request s).1 := by
  cases request with
  | getItems => exact h
  | deleteItem id =>
    simp only [handleRequest, routerDelete]
    split
    · exact h
    · intro item hitem
      exact h item ((splice_delete_sublist s.items _ 1).subset hitem)
  | patchItem id directive =>
    simp only [handleRequest, routerPatch]
    split
    · rename_i fullPath hpath
      have hne : substringFromOne fullPath ≠ "id" := by
        simpa [ApiRequest.keepsIds, hpath] using hk
      split
      · exact h
      · split
        · exact h
        · intro item hitem
          rcases mem_modifyAt _ _ _ _ hitem with h1 | ⟨y, hy, hxy⟩
          · exact h item h1
          · obtain ⟨n, hn, hle⟩ := h y hy
            refine ⟨n, ?_, hle⟩
            rw [hxy, getProp_setProp_other _ _ _ _ hne]
            exact hn
    · exact h
  | postItem body =>
    simp only [handleRequest, routerPost]
    split
    · intro item hitem
      obtain ⟨n, hn, hle⟩ := h item hitem
      exact ⟨n, hn, by show n ≤ s.lastId + 1; omega⟩
    · intro item hitem
      rcases List.mem_append.1 hitem with h1 | h1
      · obtain ⟨n, hn, hle⟩ := h item h1
        exact ⟨n, hn, by show n ≤ s.lastId + 1; omega⟩
      · rw [List.mem_singleton.1 h1]
        exact ⟨s.lastId + 1, getProp_setProp_same _ _ _, le_refl _⟩

theorem runApi_idsAssigned (requests : List ApiRequest) (s : Server) (h : IdsAssigned s)
    (hk : ∀ q ∈ requests, q.keepsIds = true) : IdsAssigned (runApi requests s) := by
  induction requests generalizing s with
  | nil => exact h
  | cons q rest ih =>
    exact ih (handleRequest q s).1
      (handleRequest_idsAssigned q s h (hk q (List.mem_cons_self _ _)))
      (fun r hr => hk r (List.mem_cons_of_mem _ hr))

theorem initialServer_idsAssigned : IdsAssigned initialServer := by
  intro item hitem
  simp only [initialServer, List.mem_cons, List.mem_singleton, List.not_mem_nil, or_false] at hitem
  rcases hitem with rfl | rfl | rfl
  · exact ⟨0, rfl, by decide⟩
  · exact ⟨1, rfl, by decide⟩
  · exact ⟨2, rfl, by decide⟩

/-! ## The claims -/

/-- C1, evaluated where it fails: the store holds records 1 and 2 and none
with id 9, yet `removeItemFromList(9)` removes a record: the last one where
`Array.prototype.findIndex` exists (`splice(-1, 1)`), the first one where the
fallback runs (`splice(null, 1)`). -/
theorem removeItemFromList_absent_id_removes_a_record :
    getItemById modernEnv [⟨1, "Milk", none, none⟩, ⟨2, "Eggs", none, none⟩] 9 = none
      ∧ removeItemFromList modernEnv [⟨1, "Milk", none, none⟩, ⟨2, "Eggs", none, none⟩] 9
          = [⟨1, "Milk", none, none⟩]
      ∧ removeItemFromList legacyEnv [⟨1, "Milk", none, none⟩, ⟨2, "Eggs", none, none⟩] 9
          = [⟨2, "Eggs", none, none⟩] := by
  decide

/-- C2, evaluated where it fails: in a browser without
`Array.prototype.findIndex` the store holds records 1 and 2 and none with id 9,
yet `replaceItemInList` of a record with id 9 overwrites the first record
(the fallback returns `null`, `null >= 0` holds and `splice(null, 1, newItem)` runs). -/
theorem replaceItemInList_absent_id_overwrites_on_fallback :
    getItemById legacyEnv [⟨1, "Milk", none, none⟩, ⟨2, "Eggs", none, none⟩] 9 = none
      ∧ replaceItemInList legacyEnv [⟨1, "Milk", none, none⟩, ⟨2, "Eggs", none, none⟩]
            ⟨9, "Salt", none, none⟩
          = [⟨9, "Salt", none, none⟩, ⟨2, "Eggs", none, none⟩] := by
  decide

/-- C3: from the empty store, after any sequence of `ui.updateItem` calls (any
item, any element argument, any fragment) and `store.removeItemFromList` calls
(any id), in either browser environment and over any rendered list, no two
records of the store share an id. -/
theorem store_ids_unique (env : Env) (ops : List StoreOp) (list : List ItemEl) :
    ((runStoreOps env ops ⟨[], list⟩).items.map Item.id).Nodup :=
  runStoreOps_ids_nodup env ops ⟨[], list⟩ List.nodup_nil

/-- C4: after any sequence of add, update and delete continuations that all
completed, run from the empty store and the empty list, an id is the id of a
record of the store exactly when it is the `data-id` of an element of the list. -/
theorem store_and_list_ids_agree (env : Env) (ops : List Op)
    (hok : (run env ops emptyState).2 = true) (id : Int) :
    id ∈ (run env ops emptyState).1.items.map Item.id
      ↔ some id ∈ (run env ops emptyState).1.list.map ItemEl.dataId := by
  have h := run_agrees env ops emptyState ⟨rfl, List.nodup_nil⟩ hok
  rw [h.1]
  simp only [List.mem_map]
  constructor
  · rintro ⟨item, hi, hid⟩
    exact ⟨item, hi, by rw [hid]⟩
  · rintro ⟨item, hi, hid⟩
    exact ⟨item, hi, Option.some.inj hid⟩

/-- C4 at a concrete run: two adds, an update and a delete complete, and id 2
is in the store and in the list afterwards. -/
theorem store_and_list_ids_agree_witness :
    (run modernEnv [Op.add ⟨1, "Milk", none, none⟩, Op.add ⟨2, "Eggs", none, none⟩,
        Op.update ⟨1, "Milk", some true, none⟩, Op.delete 1] emptyState).2 = true
      ∧ ((2 : Int) ∈ (run modernEnv [Op.add ⟨1, "Milk", none, none⟩,
            Op.add ⟨2, "Eggs", none, none⟩, Op.update ⟨1, "Milk", some true, none⟩,
            Op.delete 1] emptyState).1.items.map Item.id
          ↔ some (2 : Int) ∈ (run modernEnv [Op.add ⟨1, "Milk", none, none⟩,
            Op.add ⟨2, "Eggs", none, none⟩, Op.update ⟨1, "Milk", some true, none⟩,
            Op.delete 1] emptyState).1.list.map ItemEl.dataId) :=
  ⟨by decide, store_and_list_ids_agree modernEnv _ (by decide) 2⟩

/-- C5 as stated fails: an archived item without a prior record gets an
element whose `hidden` attribute is absent (the create path never writes it). -/
theorem archived_item_created_not_hidden :
    getItemById modernEnv emptyState.items 7 = none
      ∧ (⟨7, "Milk", none, some true⟩ : Item).archived = some true
      ∧ (updateItem modernEnv ⟨7, "Milk", none, some true⟩ none none emptyState).state.list
          = [⟨some 7, "Milk", false, false, false, false, ""⟩] := by
  decide

/-- C5, amended: for an item whose id has no prior record, `updateItem` returns
normally, appends the item to the store and one element to the list; the
element's `data-id` is the item's id, its name text the item's name, its
checkbox state and `completed` attribute the truthiness of `item.completed`;
its `hidden` attribute, its `editing` attribute and its edit input are those of
the item template, whatever `item.archived` is. -/
theorem create_path (env : Env) (item : Item) (s : State)
    (h : getItemById env s.items item.id = none) :
    ∃ el : ItemEl,
      updateItem env item none none s = ⟨⟨s.items ++ [item], s.list ++ [el]⟩, none, none, Status.ok⟩
        ∧ el.dataId = some item.id
        ∧ el.nameText = item.name
        ∧ el.checked = truthy item.completed
        ∧ el.completed = truthy item.completed
        ∧ el.hidden = env.template.hidden
        ∧ el.editing = env.template.editing
        ∧ el.editValue = env.template.editValue :=
  ⟨applyNew item env.template, updateItem_new env item none s h, rfl, rfl, rfl, rfl, rfl, rfl, rfl⟩

/-- C5, amended, at a concrete input: a completed item added to a store that holds another id. -/
theorem create_path_witness :
    getItemById legacyEnv [⟨1, "Milk", none, none⟩] 2 = none
      ∧ ∃ el : ItemEl,
        updateItem legacyEnv ⟨2, "Eggs", some true, none⟩ none none
            ⟨[⟨1, "Milk", none, none⟩], [⟨some 1, "Milk", false, false, false, false, ""⟩]⟩
          = ⟨⟨[⟨1, "Milk", none, none⟩] ++ [⟨2, "Eggs", some true, none⟩],
              [⟨some 1, "Milk", false, false, false, false, ""⟩] ++ [el]⟩, none, none, Status.ok⟩
        ∧ el.dataId = some 2
        ∧ el.nameText = "Eggs"
        ∧ el.checked = truthy (some true)
        ∧ el.completed = truthy (some true)
        ∧ el.hidden = legacyEnv.template.hidden
        ∧ el.editing = legacyEnv.template.editing
        ∧ el.editValue = legacyEnv.template.editValue :=
  ⟨by decide, create_path legacyEnv ⟨2, "Eggs", some true, none⟩
    ⟨[⟨1, "Milk", none, none⟩], [⟨some 1, "Milk", false, false, false, false, ""⟩]⟩ (by decide)⟩

/-- C6: for an item whose id has a prior record `oldItem`, and whose element
(the first with that `data-id`) is the one at position `k`, `updateItem` returns
normally; the store holds the item in the place of the first record with its
id and is otherwise unchanged; the list keeps its length and every other
element; on the item's element the name text becomes the item's name if the
name differs from the prior record's and stays otherwise, the `hidden`
attribute follows `item.archived` if `archived` differs and stays otherwise,
the `completed` attribute follows `item.completed` if `completed` differs and
stays otherwise; `data-id`, checkbox, `editing` and the edit input stay. -/
theorem update_path (env : Env) (newItem oldItem : Item) (documentFragment : Option (List ItemEl))
    (s : State) (k : Nat) (el : ItemEl)
    (hold : getItemById env s.items newItem.id = some oldItem)
    (hq : querySelector s.list newItem.id = some k)
    (hel : s.list.get? k = some el) :
    (updateItem env newItem none documentFragment s).status = Status.ok
      ∧ (updateItem env newItem none documentFragment s).documentFragment = documentFragment
      ∧ (∃ pre post, s.items = pre ++ oldItem :: post ∧ (∀ y ∈ pre, y.id ≠ newItem.id)
          ∧ (updateItem env newItem none documentFragment s).state.items = pre ++ newItem :: post)
      ∧ (updateItem env newItem none documentFragment s).state.list.length = s.list.length
      ∧ (∀ j, j ≠ k →
          (updateItem env newItem none documentFragment s).state.list.get? j = s.list.get? j)
      ∧ ∃ el2 : ItemEl,
          (updateItem env newItem none documentFragment s).state.list.get? k = some el2
            ∧ el2.nameText = (if newItem.name ≠ oldItem.name then newItem.name else el.nameText)
            ∧ el2.hidden
                = (if newItem.archived ≠ oldItem.archived then truthy newItem.archived else el.hidden)
            ∧ el2.completed
                = (if newItem.completed ≠ oldItem.completed then truthy newItem.completed
                    else el.completed)
            ∧ el2.dataId = el.dataId
            ∧ el2.checked = el.checked
            ∧ el2.editing = el.editing
            ∧ el2.editValue = el.editValue := by
  obtain ⟨hid, pre, post, hsplit, hpre⟩ := getItemById_some env s.items newItem.id oldItem hold
  rw [updateItem_existing env newItem oldItem none documentFragment s hold]
  unfold updateExisting
  simp only [hq]
  refine ⟨trivial, trivial, ⟨pre, post, hsplit, hpre, ?_⟩, modifyAt_length _ k s.list, ?_, ?_⟩
  · rw [hsplit]
    exact replaceItemInList_split env pre post oldItem newItem hpre hid
  · intro j hj
    rw [get?_modifyAt, if_neg hj]
  · refine ⟨applyChanges newItem oldItem el, ?_, ?_⟩
    · rw [get?_modifyAt, if_pos rfl, hel]
      rfl
    · unfold applyChanges
      simp only
      split_ifs <;> simp

/-- C6 at a concrete input: a rename of the second of two rendered items. -/
theorem update_path_witness :
    getItemById modernEnv [⟨1, "Milk", none, none⟩, ⟨2, "Eggs", none, none⟩] 2
        = some ⟨2, "Eggs", none, none⟩
      ∧ querySelector [⟨some 1, "Milk", false, false, false, false, ""⟩,
            ⟨some 2, "Eggs", false, false, false, false, ""⟩] 2 = some 1
      ∧ (updateItem modernEnv ⟨2, "Six eggs", none, none⟩ none none
          ⟨[⟨1, "Milk", none, none⟩, ⟨2, "Eggs", none, none⟩],
            [⟨some 1, "Milk", false, false, false, false, ""⟩,
              ⟨some 2, "Eggs", false, false, false, false, ""⟩]⟩).status = Status.ok :=
  ⟨by decide, by decide,
    (update_path modernEnv ⟨2, "Six eggs", none, none⟩ ⟨2, "Eggs", none, none⟩ none
      ⟨[⟨1, "Milk", none, none⟩, ⟨2, "Eggs", none, none⟩],
        [⟨some 1, "Milk", false, false, false, false, ""⟩,
          ⟨some 2, "Eggs", false, false, false, false, ""⟩]⟩
      1 ⟨some 2, "Eggs", false, false, false, false, ""⟩ (by decide) (by decide) (by decide)).1⟩

/-- C7: in every state and for every record `r`, a second `updateItem(r)` right
after the first returns normally and leaves the store and the list exactly as
the first left them. -/
theorem updateItem_idempotent (env : Env) (r : Item) (s : State) :
    updateItem env r none none (updateItem env r none none s).state
      = ⟨(updateItem env r none none s).state, none, none, Status.ok⟩ := by
  have h := getItemById_after_updateItem env r none none s
  rw [updateItem_existing env r r none none _ h]
  exact updateExisting_self env r _ h

/-- C8, evaluated where it fails: an item is rendered unchecked; the user
clicks its checkbox twice, which sends `completed: true` and then
`completed: false`; the responses are reconciled in the opposite order. At the
end the store record and the `completed` attribute are those of the response
reconciled last (`true`) and there is still one element, but the checkbox is
unchecked: the update path never writes it. -/
theorem racing_toggles_leave_checkbox_stale :
    raceStart = ⟨[⟨1, "Milk", some false, none⟩], [⟨some 1, "Milk", false, false, false, false, ""⟩]⟩
      ∧ (handlerBegin (Gesture.completedChange 0) (page (clickCheckbox 0 raceStart))).2
          = some (Request.patchItem (some 1) "/completed" (PatchValue.bool true))
      ∧ (handlerBegin (Gesture.completedChange 0) (page raceClicked)).2
          = some (Request.patchItem (some 1) "/completed" (PatchValue.bool false))
      ∧ raceEnd.items = [⟨1, "Milk", some true, none⟩]
      ∧ raceEnd.list = [⟨some 1, "Milk", false, true, false, false, ""⟩] := by
  decide

/-- C9 as stated fails: an edit commit whose request ends in a network error
leaves the item's element without the `editing` attribute it had before. -/
theorem failed_edit_commit_leaves_edit_mode :
    Fetched.failed.isFailure = true
      ∧ (page ⟨[⟨1, "Milk", none, none⟩],
            [⟨some 1, "Milk", false, false, false, true, "Oat milk"⟩]⟩).view.list
          = [⟨some 1, "Milk", false, false, false, true, "Oat milk"⟩]
      ∧ (perform modernEnv (fun _ => none) (Gesture.editSubmit 0) Fetched.failed
          (page ⟨[⟨1, "Milk", none, none⟩],
            [⟨some 1, "Milk", false, false, false, true, "Oat milk"⟩]⟩)).view.list
          = [⟨some 1, "Milk", false, false, false, false, "Oat milk"⟩] := by
  decide

/-- C9, amended: for every controller operation (add, toggle completed, edit
commit, delete click, undo, permanent delete by close or timeout) whose request
ends in a network or application failure, the store is exactly as before the
operation and so is every item element, except that an edit commit has removed
the `editing` attribute of its element (which it does before it sends the
request). -/
theorem failure_leaves_store_and_elements (env : Env) (parse : String → Option Item)
    (g : Gesture) (fetched : Fetched) (app : App) (h : fetched.isFailure = true) :
    (perform env parse g fetched app).view.items = app.view.items
      ∧ (perform env parse g fetched app).view.list
          = match g with
            | Gesture.editSubmit k => modifyAt leaveEditMode k app.view.list
            | _ => app.view.list := by
  unfold perform
  cases g with
  | addSubmit =>
    simp only [handlerBegin]
    split_ifs
    · simp only
      rw [handlerSettle_failure env parse _ _ fetched app h]
      exact ⟨rfl, rfl⟩
    · exact ⟨rfl, rfl⟩
  | completedChange k =>
    simp only [handlerBegin]
    cases app.view.list.get? k with
    | none => exact ⟨rfl, rfl⟩
    | some el =>
      simp only
      rw [handlerSettle_failure env parse _ _ fetched app h]
      exact ⟨rfl, rfl⟩
  | deleteClick k =>
    simp only [handlerBegin]
    cases app.view.list.get? k with
    | none => exact ⟨rfl, rfl⟩
    | some el =>
      simp only
      rw [handlerSettle_failure env parse _ _ fetched app h]
      exact ⟨rfl, rfl⟩
  | editSubmit k =>
    simp only [handlerBegin]
    cases hk : app.view.list.get? k with
    | none =>
      simp only
      exact ⟨trivial, (modifyAt_of_get?_none leaveEditMode k app.view.list hk).symm⟩
    | some el =>
      simp only
      rw [handlerSettle_failure env parse _ _ fetched _ h]
      exact ⟨rfl, rfl⟩
  | undoClick =>
    simp only [handlerBegin]
    rw [handlerSettle_failure env parse _ _ fetched _ h]
    exact ⟨rfl, rfl⟩
  | closeClick =>
    simp only [handlerBegin]
    rw [handlerSettle_failure env parse _ _ fetched _ h]
    exact ⟨rfl, rfl⟩
  | timeout handle =>
    simp only [handlerBegin]
    cases app.timers.find? (fun t => decide (t.1 = handle)) with
    | none => exact ⟨rfl, rfl⟩
    | some t =>
      simp only
      rw [handlerSettle_failure env parse _ _ fetched _ h]
      exact ⟨rfl, rfl⟩

/-- C9, amended, at a concrete input: a toggle answered with status 404 and an empty body. -/
theorem failure_leaves_store_and_elements_witness :
    (Fetched.response ⟨404, ""⟩).isFailure = true
      ∧ (perform modernEnv (fun _ => none) (Gesture.completedChange 0)
            (Fetched.response ⟨404, ""⟩) (page raceClicked)).view.items = (page raceClicked).view.items
      ∧ (perform modernEnv (fun _ => none) (Gesture.completedChange 0)
            (Fetched.response ⟨404, ""⟩) (page raceClicked)).view.list
          = (page raceClicked).view.list :=
  ⟨by decide,
    failure_leaves_store_and_elements modernEnv (fun _ => none) (Gesture.completedChange 0)
      (Fetched.response ⟨404, ""⟩) (page raceClicked) (by decide)⟩

/-- C10: for every response whose status is outside 200 to 299, whatever the
method, `sendRequest` rejects with an `Error` whose message is the response
text when that text is not empty and the status code otherwise, has handed
that message to `showError` (the error box holds it and is shown), and does not
resolve with any payload. -/
theorem sendRequest_application_failure {α : Type} (parse : String → Option α) (method : String)
    (r : Response) (alert : Alert) (h : ¬ (200 ≤ r.status ∧ r.status ≤ 299)) :
    (sendRequest parse method (Fetched.response r) alert).1
        = Settled.rejected (Failure.error
            (if r.text ≠ "" then Message.text r.text else Message.status r.status))
      ∧ (sendRequest parse method (Fetched.response r) alert).2
        = showError (if r.text ≠ "" then Message.text r.text else Message.status r.status) alert
      ∧ (sendRequest parse method (Fetched.response r) alert).2.content
        = some (if r.text ≠ "" then Message.text r.text else Message.status r.status)
      ∧ (sendRequest parse method (Fetched.response r) alert).2.hidden = false
      ∧ ∀ payload, (sendRequest parse method (Fetched.response r) alert).1
          ≠ Settled.resolved payload := by
  have hr : r.ok = false := by simpa [Response.ok] using h
  have hs : sendRequest parse method (Fetched.response r) alert
      = (Settled.rejected (Failure.error (errorMessage r)), showError (errorMessage r) alert) := by
    simp [sendRequest, hr]
  rw [hs]
  refine ⟨rfl, rfl, rfl, rfl, ?_⟩
  intro payload hp
  cases hp

/-- C10 at concrete inputs: a 404 without a body is reported by its status code. -/
theorem sendRequest_application_failure_witness :
    ¬ (200 ≤ (⟨404, ""⟩ : Response).status ∧ (⟨404, ""⟩ : Response).status ≤ 299)
      ∧ (sendRequest (fun _ => (none : Option Item)) "DELETE" (Fetched.response ⟨404, ""⟩)
            ⟨none, true, false⟩).1
          = Settled.rejected (Failure.error (Message.status 404)) :=
  ⟨by decide,
    (sendRequest_application_failure (fun _ => (none : Option Item)) "DELETE" ⟨404, ""⟩
      ⟨none, true, false⟩ (by decide)).1⟩

/-- C11 as stated fails: after two delete clicks within the ten seconds both
countdowns are outstanding, both records are still in the store (nothing was
deleted), and only the second countdown is remembered. -/
theorem second_delete_keeps_first_countdown :
    afterOneDelete.timers = [(0, some 1)]
      ∧ afterTwoDeletes.timers = [(0, some 1), (1, some 2)]
      ∧ afterTwoDeletes.undoTimer = some 1
      ∧ afterTwoDeletes.lastDeletedItemId = some 2
      ∧ afterTwoDeletes.view.items = [⟨1, "Milk", none, some true⟩, ⟨2, "Eggs", none, some true⟩] := by
  decide

/-- C11, amended: `showUndoDelete` for a new id cancels nothing and deletes
nothing. Every countdown that was pending stays pending and one more is added;
the store and the list are untouched; only the new countdown and the new id
are remembered, and the prompt is shown. An earlier countdown still sends the
permanent delete of its own item when it fires. -/
theorem showUndoDelete_adds_a_countdown (id : Option Int) (app : App) :
    (showUndoDelete id app).timers = app.timers ++ [(app.nextTimer, id)]
      ∧ (∀ t ∈ app.timers, t ∈ (showUndoDelete id app).timers)
      ∧ (showUndoDelete id app).view = app.view
      ∧ (showUndoDelete id app).undoTimer = some app.nextTimer
      ∧ (showUndoDelete id app).lastDeletedItemId = id
      ∧ (showUndoDelete id app).promptHidden = false
      ∧ ∀ handle t, app.timers.find? (fun t => decide (t.1 = handle)) = some t →
          (handlerBegin (Gesture.timeout handle) (showUndoDelete id app)).2
            = some (Request.deleteItem t.2) := by
  refine ⟨rfl, ?_, rfl, rfl, rfl, rfl, ?_⟩
  · intro t ht
    show t ∈ app.timers ++ [(app.nextTimer, id)]
    exact List.mem_append_left _ ht
  · intro handle t ht
    have hf : (showUndoDelete id app).timers.find? (fun t => decide (t.1 = handle)) = some t := by
      show (app.timers ++ [(app.nextTimer, id)]).find? (fun t => decide (t.1 = handle)) = some t
      rw [List.find?_append, ht]
      rfl
    simp only [handlerBegin, hf]

/-- C11, amended, at a concrete input: a second soft-delete is entered while
the countdown of item 1 is pending; that countdown still sends the delete of item 1. -/
theorem showUndoDelete_adds_a_countdown_witness :
    afterOneDelete.timers.find? (fun t => decide (t.1 = 0)) = some (0, some 1)
      ∧ (handlerBegin (Gesture.timeout 0) (showUndoDelete (some 2) afterOneDelete)).2
          = some (Request.deleteItem (some 1)) :=
  ⟨by decide,
    (showUndoDelete_adds_a_countdown (some 2) afterOneDelete).2.2.2.2.2.2 0 (0, some 1)
      (by decide)⟩

/-- C12 as stated fails: with the soft-deletes of items 1 and 2 both pending, a
click on undo before either countdown fires leaves the countdown of item 1
outstanding, sends the un-archive request for item 2 only, and the countdown of
item 1 still sends its permanent delete when it fires. -/
theorem undo_does_not_reach_earlier_delete :
    (handlerBegin Gesture.undoClick afterTwoDeletes).1.timers = [(0, some 1)]
      ∧ (handlerBegin Gesture.undoClick afterTwoDeletes).2
          = some (Request.patchItem (some 2) "/archived" (PatchValue.bool false))
      ∧ (handlerBegin (Gesture.timeout 0) (handlerBegin Gesture.undoClick afterTwoDeletes).1).2
          = some (Request.deleteItem (some 1)) := by
  decide

/-- C12, amended: for the soft-delete the component remembers (id `i` in
`lastDeletedItemId`, countdown `h` in `undoTimer`), a click on undo removes
that countdown, so that it can no longer fire and send its delete request,
sends the replace request setting `archived` to `false` for `i`, and hides the
prompt. When the response is a success carrying the record `r` of `i` with
`archived` false, and the item has a record and an element whose `hidden`
attribute matches it, then afterwards the store's record for `i` is `r`, the
element is not hidden, and the prompt is still hidden. -/
theorem undo_restores_remembered_item (env : Env) (parse : String → Option Item) (app : App)
    (i : Int) (h : Nat) (response : Response) (r oldItem : Item) (k : Nat) (el : ItemEl)
    (hid : app.lastDeletedItemId = some i) (ht : app.undoTimer = some h)
    (hok : response.ok = true) (hparse : parse response.text = some r)
    (hr : r.id = i) (hra : r.archived = some false)
    (hold : getItemById env app.view.items i = some oldItem)
    (hq : querySelector app.view.list i = some k) (hel : app.view.list.get? k = some el)
    (hh : el.hidden = truthy oldItem.archived) :
    (handlerBegin Gesture.undoClick app).2
        = some (Request.patchItem (some i) "/archived" (PatchValue.bool false))
      ∧ (∀ t ∈ (handlerBegin Gesture.undoClick app).1.timers, t.1 ≠ h)
      ∧ (handlerBegin (Gesture.timeout h) (handlerBegin Gesture.undoClick app).1).2 = none
      ∧ (handlerBegin Gesture.undoClick app).1.promptHidden = true
      ∧ getItemById env
          (perform env parse Gesture.undoClick (Fetched.response response) app).view.items i
          = some r
      ∧ (∃ el2 : ItemEl,
          (perform env parse Gesture.undoClick (Fetched.response response) app).view.list.get? k
              = some el2
            ∧ el2.dataId = some i ∧ el2.hidden = false)
      ∧ (perform env parse Gesture.undoClick (Fetched.response response) app).promptHidden
          = true := by
  subst hr
  have hfilter : ∀ t ∈ clearTimeout app.undoTimer app.timers, t.1 ≠ h := by
    intro t htm
    rw [ht] at htm
    simpa using (List.mem_filter.1 htm).2
  have hsend : sendRequest parse "PATCH" (Fetched.response response) app.alert
      = (Settled.resolved (Payload.json r), app.alert) :=
    sendRequest_json parse "PATCH" response app.alert r hok (by decide) hparse
  have hupd := updateItem_located env r oldItem none app.view k hold hq
  have hperf : perform env parse Gesture.undoClick (Fetched.response response) app
      = { app with
          timers := clearTimeout app.undoTimer app.timers
          promptHidden := true
          view := ⟨replaceItemInList env app.view.items r,
            modifyAt (applyChanges r oldItem) k app.view.list⟩ } := by
    simp [perform, handlerBegin, handlerSettle, thenUpdateItem, hsend, hupd]
  refine ⟨?_, hfilter, ?_, rfl, ?_, ?_, ?_⟩
  · simp [handlerBegin, hid]
  · have hnone : (clearTimeout app.undoTimer app.timers).find? (fun t => decide (t.1 = h))
        = none := by
      rw [List.find?_eq_none]
      intro t htm
      simpa using hfilter t htm
    simp only [handlerBegin, hnone]
  · have := getItemById_after_updateItem env r none none app.view
    rw [hupd] at this
    rw [hperf]
    exact this
  · rw [hperf]
    refine ⟨applyChanges r oldItem el, ?_, ?_, ?_⟩
    · show (modifyAt (applyChanges r oldItem) k app.view.list).get? k = _
      rw [get?_modifyAt, if_pos rfl, hel]
      rfl
    · rw [applyChanges_dataId]
      exact querySelector_dataId app.view.list r.id k el hq hel
    · rw [applyChanges_hidden r oldItem el hh, hra]
      rfl
  · rw [hperf]

/-- C12, amended, at a concrete input: the delete of item 1 is undone. -/
theorem undo_restores_remembered_item_witness :
    afterOneDelete.lastDeletedItemId = some 1
      ∧ afterOneDelete.undoTimer = some 0
      ∧ (handlerBegin Gesture.undoClick afterOneDelete).2
          = some (Request.patchItem (some 1) "/archived" (PatchValue.bool false))
      ∧ getItemById modernEnv
          (perform modernEnv scenarioParse Gesture.undoClick
            (Fetched.response ⟨200, "milk restored"⟩) afterOneDelete).view.items 1
          = some ⟨1, "Milk", none, some false⟩ :=
  ⟨by decide, by decide,
    (undo_restores_remembered_item modernEnv scenarioParse afterOneDelete 1 0
      ⟨200, "milk restored"⟩ ⟨1, "Milk", none, some false⟩ ⟨1, "Milk", none, some true⟩ 0
      ⟨some 1, "Milk", false, false, true, false, ""⟩
      (by decide) (by decide) (by decide) (by decide) (by decide) (by decide) (by decide)
      (by decide) (by decide) (by decide)).1,
    (undo_restores_remembered_item modernEnv scenarioParse afterOneDelete 1 0
      ⟨200, "milk restored"⟩ ⟨1, "Milk", none, some false⟩ ⟨1, "Milk", none, some true⟩ 0
      ⟨some 1, "Milk", false, false, true, false, ""⟩
      (by decide) (by decide) (by decide) (by decide) (by decide) (by decide) (by decide)
      (by decide) (by decide) (by decide)).2.2.2.2.1⟩

/-- C13 as stated fails: item 1 was deleted and its countdown fired, the
permanent delete succeeded and the record is gone; the id is still remembered,
and a later click on undo sends an un-archive request for item 1, a later
click on close a delete request for item 1. -/
theorem resolved_delete_is_still_remembered :
    afterCountdown.timers = []
      ∧ afterCountdown.promptHidden = true
      ∧ afterCountdown.view.items = [⟨2, "Eggs", none, none⟩]
      ∧ afterCountdown.lastDeletedItemId = some 1
      ∧ (handlerBegin Gesture.undoClick afterCountdown).2
          = some (Request.patchItem (some 1) "/archived" (PatchValue.bool false))
      ∧ (handlerBegin Gesture.closeClick afterCountdown).2
          = some (Request.deleteItem (some 1)) := by
  decide

/-- C13, amended: once a soft-delete has been resolved by undo, by close or by
its countdown firing, whatever the outcome of the request, the prompt is hidden
and that countdown is no longer pending, but `lastDeletedItemId` is kept: a
later click on undo sends an un-archive request and a later click on close a
delete request for the remembered id. -/
theorem resolved_delete_keeps_remembered_id (env : Env) (parse : String → Option Item)
    (g : Gesture) (fetched : Fetched) (app : App)
    (hg : g = Gesture.undoClick ∨ g = Gesture.closeClick ∨ ∃ handle, g = Gesture.timeout handle) :
    (perform env parse g fetched app).lastDeletedItemId = app.lastDeletedItemId
      ∧ (handlerBegin Gesture.undoClick (perform env parse g fetched app)).2
          = some (Request.patchItem app.lastDeletedItemId "/archived" (PatchValue.bool false))
      ∧ (handlerBegin Gesture.closeClick (perform env parse g fetched app)).2
          = some (Request.deleteItem app.lastDeletedItemId)
      ∧ (g = Gesture.undoClick ∨ g = Gesture.closeClick →
          (perform env parse g fetched app).promptHidden = true
            ∧ ∀ t ∈ (perform env parse g fetched app).timers, some t.1 ≠ app.undoTimer)
      ∧ ∀ handle t, g = Gesture.timeout handle →
          app.timers.find? (fun t => decide (t.1 = handle)) = some t →
          (perform env parse g fetched app).promptHidden = true
            ∧ ∀ t ∈ (perform env parse g fetched app).timers, t.1 ≠ handle := by
  have hkeep := perform_keeps_lastDeletedItemId env parse g fetched app hg
  refine ⟨hkeep, ?_, ?_, ?_, ?_⟩
  · simp [handlerBegin, hkeep]
  · simp [handlerBegin, hkeep]
  · intro hg2
    obtain ⟨hp, htm⟩ := perform_undo_or_close env parse g fetched app hg2
    refine ⟨hp, ?_⟩
    rw [htm]
    intro t ht
    cases hu : app.undoTimer with
    | none => simp
    | some h =>
      rw [hu] at ht
      have := (List.mem_filter.1 ht).2
      simpa using this
  · intro handle t hgt hfind
    subst hgt
    obtain ⟨hp, htm⟩ := perform_timeout env parse handle fetched app t hfind
    refine ⟨hp, ?_⟩
    rw [htm]
    intro t2 ht2
    simpa using (List.mem_filter.1 ht2).2

/-- C13, amended, at a concrete input: the countdown of item 1 fires and its request fails. -/
theorem resolved_delete_keeps_remembered_id_witness :
    (Gesture.timeout 0 = Gesture.undoClick ∨ Gesture.timeout 0 = Gesture.closeClick
        ∨ ∃ handle, Gesture.timeout 0 = Gesture.timeout handle)
      ∧ (perform modernEnv scenarioParse (Gesture.timeout 0) Fetched.failed
            afterOneDelete).lastDeletedItemId = afterOneDelete.lastDeletedItemId :=
  ⟨Or.inr (Or.inr ⟨0, rfl⟩),
    (resolved_delete_keeps_remembered_id modernEnv scenarioParse (Gesture.timeout 0)
      Fetched.failed afterOneDelete (Or.inr (Or.inr ⟨0, rfl⟩))).1⟩

/-- C17, evaluated where it fails: on an array in which nothing matches, the
built-in branch of `findIndexInArray` returns `-1` and the fallback branch
`null`; `removeItemFromList` then removes the last record on the one and the
first on the other, and `replaceItemInList` leaves the store alone on the one
and overwrites the first record on the other. -/
theorem findIndex_shim_differs_when_nothing_matches :
    findIndexInArray modernEnv [⟨1, "Milk", none, none⟩, ⟨2, "Eggs", none, none⟩]
        (fun item : Item => decide (item.id = 9)) = JsIndex.num (-1)
      ∧ findIndexInArray legacyEnv [⟨1, "Milk", none, none⟩, ⟨2, "Eggs", none, none⟩]
        (fun item : Item => decide (item.id = 9)) = JsIndex.null
      ∧ removeItemFromList modernEnv [⟨1, "Milk", none, none⟩, ⟨2, "Eggs", none, none⟩] 9
        ≠ removeItemFromList legacyEnv [⟨1, "Milk", none, none⟩, ⟨2, "Eggs", none, none⟩] 9
      ∧ replaceItemInList modernEnv [⟨1, "Milk", none, none⟩, ⟨2, "Eggs", none, none⟩]
          ⟨9, "Salt", none, none⟩
        ≠ replaceItemInList legacyEnv [⟨1, "Milk", none, none⟩, ⟨2, "Eggs", none, none⟩]
          ⟨9, "Salt", none, none⟩ := by
  decide

/-- C15 as stated fails: the response of `GET /api/items` holds an archived
item and one that is not archived; after `loadInitialItems` the archived item
is not in the client store and has no element. -/
theorem initial_load_drops_archived_items :
    loadInitialItemsThen modernEnv
        [⟨5, "Milk", none, some true⟩, ⟨6, "Eggs", none, none⟩] emptyState
      = (⟨[⟨6, "Eggs", none, none⟩], [⟨some 6, "Eggs", false, false, false, false, ""⟩]⟩,
          Status.ok) := by
  decide

/-- C15, amended. Through `updateItem` on an archive response `r` for an item
that has a prior record and an element found by its `data-id`: afterwards the
store's record for the item is `r`, and the element is hidden exactly when the
prior record was not archived or the element was hidden already (an element
left visible over a record that is already archived stays visible).
Through `loadInitialItems`: an archived item `x` of the response is skipped;
when no item of the response that is not archived shares its id and the page
held neither a record nor an element with its id before the load, afterwards
the store has no record and the list no element for it. -/
theorem archived_items_on_the_client (env : Env)
    (r oldItem : Item) (s : State) (k : Nat) (el : ItemEl)
    (hra : r.archived = some true)
    (hold : getItemById env s.items r.id = some oldItem)
    (hq : querySelector s.list r.id = some k) (hel : s.list.get? k = some el)
    (items : List Item) (x : Item) (s0 : State)
    (hx : x ∈ items) (hxa : x.archived = some true)
    (hitems : ∀ y ∈ items, y.id = x.id → truthy y.archived = true)
    (hs : x.id ∉ s0.items.map Item.id) (hl : some x.id ∉ s0.list.map ItemEl.dataId) :
    (getItemById env (updateItem env r none none s).state.items r.id = some r
        ∧ ∃ el2 : ItemEl, (updateItem env r none none s).state.list.get? k = some el2
            ∧ el2.dataId = some r.id
            ∧ (el2.hidden = true ↔ (oldItem.archived ≠ some true ∨ el.hidden = true)))
      ∧ (getItemById env (loadInitialItemsThen env items s0).1.items x.id = none
        ∧ querySelector (loadInitialItemsThen env items s0).1.list x.id = none) := by
  have _hx := hx
  have _hxa := hxa
  refine ⟨⟨getItemById_after_updateItem env r none none s, ?_⟩,
    loadInitialItemsThen_skips env x.id items hitems s0 hs hl⟩
  rw [updateItem_located env r oldItem none s k hold hq]
  refine ⟨applyChanges r oldItem el, ?_, ?_, ?_⟩
  · show (modifyAt (applyChanges r oldItem) k s.list).get? k = _
    rw [get?_modifyAt, if_pos rfl, hel]
    rfl
  · rw [applyChanges_dataId]
    exact querySelector_dataId s.list r.id k el hq hel
  · rw [applyChanges_hidden_eq, hra]
    by_cases ha : oldItem.archived = some true
    · simp [ha]
    · have ha2 : some true ≠ oldItem.archived := fun h => ha h.symm
      simp [ha, ha2, truthy]

/-- C15, amended, at a concrete input: item 1 of two rendered items, not
archived so far, is archived and its element becomes hidden; a page load
receives an archived item 5 and does not keep it. -/
theorem archived_items_on_the_client_witness :
    (getItemById modernEnv
          (updateItem modernEnv ⟨1, "Milk", none, some true⟩ none none twoItems).state.items 1
        = some ⟨1, "Milk", none, some true⟩
        ∧ ∃ el2 : ItemEl,
          (updateItem modernEnv ⟨1, "Milk", none, some true⟩ none none twoItems).state.list.get? 0
              = some el2
            ∧ el2.dataId = some 1 ∧ el2.hidden = true)
      ∧ (getItemById modernEnv (loadInitialItemsThen modernEnv
            [⟨5, "Milk", none, some true⟩, ⟨6, "Eggs", none, none⟩] emptyState).1.items 5 = none
        ∧ querySelector (loadInitialItemsThen modernEnv
            [⟨5, "Milk", none, some true⟩, ⟨6, "Eggs", none, none⟩] emptyState).1.list 5 = none) := by
  obtain ⟨⟨h1, el2, h2, h3, h4⟩, h5⟩ :=
    archived_items_on_the_client modernEnv ⟨1, "Milk", none, some true⟩ ⟨1, "Milk", none, none⟩
      twoItems 0 ⟨some 1, "Milk", false, false, false, false, ""⟩
      (by decide) (by decide) (by decide) (by decide)
      [⟨5, "Milk", none, some true⟩, ⟨6, "Eggs", none, none⟩] ⟨5, "Milk", none, some true⟩
      emptyState (by decide) (by decide) (by decide) (by decide) (by decide)
  exact ⟨⟨h1, el2, h2, h3, h4.2 (Or.inl (by decide))⟩, h5⟩

/-- C14, evaluated where it fails: the first item is in edit mode and its input
is empty. The edit commit sends a replace of `/name` by the empty string; the
server stores it and answers 200 with the item; the client reconciles the
answer, and the record of the store and the record of the server both have the
empty name. -/
theorem edit_commit_stores_empty_name :
    (handlerBegin (Gesture.editSubmit 0) editingWithEmptyInput).2
        = some (Request.patchItem (some 0) "/name" (PatchValue.str ""))
      ∧ handleRequest (Request.patchItem (some 0) "/name" (PatchValue.str "")).toApi initialServer
        = (⟨[[("id", JsVal.num 0), ("name", JsVal.str "")],
              [("id", JsVal.num 1), ("name", JsVal.str "Ketchup")],
              [("id", JsVal.num 2), ("name", JsVal.str "MacBook Pro")]], 2⟩,
            ⟨200, ApiBody.item [("id", JsVal.num 0), ("name", JsVal.str "")]⟩)
      ∧ toItem [("id", JsVal.num 0), ("name", JsVal.str "")] = some ⟨0, "", none, none⟩
      ∧ (perform modernEnv (fun _ => toItem [("id", JsVal.num 0), ("name", JsVal.str "")])
            (Gesture.editSubmit 0) (Fetched.response ⟨200, "the item as JSON"⟩)
            editingWithEmptyInput).view
        = ⟨[⟨0, "", none, none⟩], [⟨some 0, "", false, false, false, false, ""⟩]⟩ := by
  decide

/-- C16, evaluated where it fails: on a fresh server a patch replaces the `id`
of the first item by 3 (no item is named `Milk`); the creation of `Milk` that
follows is answered with id 3 as well, and the list fetched next holds `Milk`
once and two records with id 3. -/
theorem created_id_can_equal_patched_id :
    (runApi patchedId initialServer).items
        = [[("id", JsVal.num 3), ("name", JsVal.str "Bananas")],
            [("id", JsVal.num 1), ("name", JsVal.str "Ketchup")],
            [("id", JsVal.num 2), ("name", JsVal.str "MacBook Pro")]]
      ∧ (handleRequest (ApiRequest.postItem [("name", JsVal.str "Milk")])
            (runApi patchedId initialServer)).2
        = ⟨200, ApiBody.item [("name", JsVal.str "Milk"), ("id", JsVal.num 3)]⟩
      ∧ (handleRequest ApiRequest.getItems
            (handleRequest (ApiRequest.postItem [("name", JsVal.str "Milk")])
              (runApi patchedId initialServer)).1).2
        = ⟨200, ApiBody.items
            [[("id", JsVal.num 3), ("name", JsVal.str "Bananas")],
              [("id", JsVal.num 1), ("name", JsVal.str "Ketchup")],
              [("id", JsVal.num 2), ("name", JsVal.str "MacBook Pro")],
              [("name", JsVal.str "Milk"), ("id", JsVal.num 3)]]⟩ := by
  decide

/-- The round trip of a creation where ids were left alone: in every server
state reached from the initial one by API requests none of which replaces an
item's `id`, and for every name `n` that no item bears, creating an item named `n` answers 200 with the new item, the
list fetched next is the former list followed by the new item, the new item
is the only one named `n`, and its id differs from the id of every item that
was there before. -/
theorem create_round_trip (requests : List ApiRequest)
    (hk : ∀ q ∈ requests, q.keepsIds = true) (n : String)
    (hn : ∀ item ∈ (runApi requests initialServer).items, getProp item "name" ≠ JsVal.str n) :
    ∃ newItem : Obj,
      (handleRequest (ApiRequest.postItem [("name", JsVal.str n)])
          (runApi requests initialServer)).2 = ⟨200, ApiBody.item newItem⟩
        ∧ (handleRequest ApiRequest.getItems
            (handleRequest (ApiRequest.postItem [("name", JsVal.str n)])
              (runApi requests initialServer)).1).2
          = ⟨200, ApiBody.items ((runApi requests initialServer).items ++ [newItem])⟩
        ∧ getProp newItem "name" = JsVal.str n
        ∧ ((runApi requests initialServer).items ++ [newItem]).filter
            (fun item => decide (getProp item "name" = JsVal.str n)) = [newItem]
        ∧ ∀ old ∈ (runApi requests initialServer).items,
            getProp newItem "id" ≠ getProp old "id" := by
  have hinv := runApi_idsAssigned requests initialServer initialServer_idsAssigned hk
  generalize runApi requests initialServer = s at hn hinv
  have hname : getProp [("name", JsVal.str n)] "name" = JsVal.str n := by simp [getProp]
  have hset : setProp [("name", JsVal.str n)] "id" (JsVal.num (s.lastId + 1))
      = [("name", JsVal.str n), ("id", JsVal.num (s.lastId + 1))] := by
    simp [setProp]
  refine ⟨[("name", JsVal.str n), ("id", JsVal.num (s.lastId + 1))], ?_, ?_, ?_, ?_, ?_⟩
  · simp [handleRequest, routerPost, hname, hset]
  · simp [handleRequest, routerPost, routerGet, hname, hset]
  · simp [getProp]
  · rw [List.filter_append]
    have h1 : s.items.filter (fun item => decide (getProp item "name" = JsVal.str n)) = [] := by
      rw [List.filter_eq_nil_iff]
      intro item hitem
      simpa using hn item hitem
    rw [h1]
    simp [getProp]
  · intro old hold hid
    obtain ⟨m, hm, hle⟩ := hinv old hold
    rw [hm] at hid
    simp [getProp] at hid
    omega

/-- The round trip of a creation at a concrete input: an item was patched, one
deleted, and `Milk` is created. -/
theorem create_round_trip_witness :
    (∀ q ∈ [ApiRequest.patchItem (some 1)
              [("op", JsVal.str "replace"), ("path", JsVal.str "/completed"),
                ("value", JsVal.bool true)],
            ApiRequest.deleteItem (some 0)], q.keepsIds = true)
      ∧ ∃ newItem : Obj,
        (handleRequest (ApiRequest.postItem [("name", JsVal.str "Milk")])
            (runApi [ApiRequest.patchItem (some 1)
              [("op", JsVal.str "replace"), ("path", JsVal.str "/completed"),
                ("value", JsVal.bool true)],
              ApiRequest.deleteItem (some 0)] initialServer)).2 = ⟨200, ApiBody.item newItem⟩
          ∧ getProp newItem "name" = JsVal.str "Milk" :=
  ⟨by decide,
    (create_round_trip
      [ApiRequest.patchItem (some 1)
        [("op", JsVal.str "replace"), ("path", JsVal.str "/completed"), ("value", JsVal.bool true)],
        ApiRequest.deleteItem (some 0)] (by decide) "Milk" (by decide)).imp
      (fun _ h => ⟨h.1, h.2.2.1⟩)⟩

end Groceries
